import Mathlib

/-!
HardInfo sensor module (`modules/devices/sensors.c`).

A shallow embedding of the sensor discovery pipeline of `sensors.c` and the
properties of it that the specification states.

Conventions of the embedding.

* A C string is a list of characters, one per byte, without the terminating
  NUL; the source literal `"\302\260C"` is `"\xc2\xb0C"`.  A `NULL` pointer is
  `none`.
* The process state (`sensors`, `lginterval`, the two hash tables and
  `hwmon_first_run`) is threaded explicitly through every function.
* The file system and the hddtemp daemon are pure functions (`FileSystem`,
  `Env`): a scan reads them and never changes them.
* Undefined behaviour of the C code (a `NULL` key handed to the hash table, a
  read past the end of an array, `g_free` of a string literal, the use of an
  `int` that was never assigned) is the result `Err.fault`; a loop that does
  not finish within its fuel is `Err.fuel`.
* Floating point is kept symbolic (`Val`): the model records which expression
  produced a `double`, and the `"%.2f"` conversion is a parameter.
* Of the heap only what the hash tables free is modelled: a value stored in
  `sensor_labels` is tagged as heap string or string literal.
-/

namespace Hardinfo

/-- C strings: the bytes before the terminating NUL. -/
abbrev Str := List Char

/-- Failures of a run: undefined behaviour, or a loop that outlived its fuel. -/
inductive Err where
  | fault
  | fuel
  deriving DecidableEq, Repr

/-- Result of a run that can fail. -/
abbrev Res (α : Type) := Except Err α

deriving instance DecidableEq for Except

/-! ## C library and GLib functions used by the module -/

/-- The C-string view of a byte buffer: everything before the first NUL. -/
def c_str (buf : Str) : Str := buf.takeWhile (fun c => c != Char.ofNat 0)

/-- `strchr(s, c)`: the suffix of `s` that starts at the first `c`. -/
def strchr : Str → Char → Option Str
  | [], _ => none
  | x :: xs, c => if x = c then some (x :: xs) else strchr xs c

/-- `strstr(haystack, needle)`: the suffix that starts at the first occurrence. -/
def strstr : Str → Str → Option Str
  | [], needle => if needle = [] then some [] else none
  | x :: xs, needle =>
    if needle.isPrefixOf (x :: xs) then some (x :: xs) else strstr xs needle

/-- ` g_str_has_prefix(str, prefix)`. -/
def g_str_has_prefix (str pfx : Str) : Bool := pfx.isPrefixOf str

/-- `g_ascii_isspace` / `isspace` in the C locale: space, `\t`, `\n`, `\v`, `\f`, `\r`. -/
def isspace (c : Char) : Bool := c = ' ' || (9 ≤ c.toNat && c.toNat ≤ 13)

/-- `isdigit`. -/
def isdigit (c : Char) : Bool := 48 ≤ c.toNat && c.toNat ≤ 57

/-- `g_strchug`: drops leading white space. -/
def g_strchug (s : Str) : Str := s.dropWhile isspace

/-- `g_strchomp`: drops trailing white space. -/
def g_strchomp (s : Str) : Str := (s.reverse.dropWhile isspace).reverse

/-- `g_strstrip(s)` is `g_strchomp(g_strchug(s))`. -/
def g_strstrip (s : Str) : Str := g_strchomp (g_strchug s)

/-- Pieces of `s` cut at the delimiter character, at most `cuts` cuts; the
remainder of the string is the last piece. -/
def strsplit_pieces (delim : Char) : Nat → Str → List Str
  | _, [] => [[]]
  | 0, c :: cs => [c :: cs]
  | n + 1, c :: cs =>
    if c = delim then [] :: strsplit_pieces delim n cs
    else
      match strsplit_pieces delim (n + 1) cs with
      | [] => [[c]]
      | t :: ts => (c :: t) :: ts

/-- `g_strsplit(string, delimiter, max_tokens)` for a one-character delimiter
(every call of the module passes `" "`, `"\n"` or `"|"`): the empty string
gives the empty vector; `max_tokens < 1` means no limit; otherwise at most
`max_tokens - 1` cuts are made and the rest of the string is the last token. -/
def g_strsplit (string : Str) (delimiter : Char) (max_tokens : Int) : List Str :=
  if string = [] then []
  else
    strsplit_pieces delimiter
      (if max_tokens < 1 then string.length else (max_tokens - 1).toNat) string

/-- Value of the leading decimal digits of a string, continuing from `acc`. -/
def digits_value : Nat → Str → Nat
  | acc, [] => acc
  | acc, c :: cs => if isdigit c then digits_value (acc * 10 + (c.toNat - 48)) cs else acc

/-- A `long` brought into range the way `strtol` does on overflow. -/
def clamp_long (n : Int) : Int :=
  if n < -(2 ^ 63) then -(2 ^ 63) else if 2 ^ 63 - 1 < n then 2 ^ 63 - 1 else n

/-- Conversion of a `long` to `int`: the low 32 bits, two's complement. -/
def int_of_long (n : Int) : Int := (n + 2 ^ 31) % 2 ^ 32 - 2 ^ 31

/-- `strtol(s, NULL, 10)`: white space, an optional sign, decimal digits. -/
def strtol (s : Str) : Int :=
  match s.dropWhile isspace with
  | '-' :: r => clamp_long (-(digits_value 0 r : Int))
  | '+' :: r => clamp_long (digits_value 0 r)
  | r => clamp_long (digits_value 0 r)

/-- `atoi(s)`, which glibc defines as `(int) strtol(s, NULL, 10)`. -/
def atoi (s : Str) : Int := int_of_long (strtol s)

/-- Decimal digits of a natural number, most significant first (`fuel` bounds
the number of digits). -/
def utoa_digits : Nat → Nat → Str → Str
  | 0, _, acc => acc
  | fuel + 1, n, acc =>
    if n / 10 = 0 then Char.ofNat (48 + n % 10) :: acc
    else utoa_digits fuel (n / 10) (Char.ofNat (48 + n % 10) :: acc)

/-- The `"%d"` conversion of `printf`. -/
def itoa (n : Int) : Str :=
  if n < 0 then '-' :: utoa_digits (n.natAbs + 1) n.natAbs []
  else utoa_digits (n.natAbs + 1) n.natAbs []

/-- `g_path_get_basename`: `"."` for the empty string, `"/"` for a string of
slashes only, otherwise the last component, trailing slashes ignored. -/
def g_path_get_basename (file_name : Str) : Str :=
  if file_name = [] then ['.']
  else
    let trimmed := (file_name.reverse.dropWhile (fun c => c = '/'))
    if trimmed = [] then ['/']
    else (trimmed.takeWhile (fun c => c != '/')).reverse

/-- `fgets(buf, size, stream)` called until end of file: the successive
buffers.  Each holds at most `size - 1` characters and ends after a newline;
`room` is the space left in the buffer being filled. -/
def fgets_all (size : Nat) : Nat → Str → List Str
  | _, [] => []
  | room, c :: cs =>
    if c = '\n' ∨ room ≤ 1 then [c] :: fgets_all size (size - 1) cs
    else
      match fgets_all size (room - 1) cs with
      | [] => [[c]]
      | l :: ls => (c :: l) :: ls

/-! ## HardInfo utility functions (`util.c`), not part of the module -/

/-- Modelled from the spec: `strend(str, chr)` of HardInfo's `util.c`, which
ends the string at the first `chr` ("strip trailing comment starting at `#`"). -/
def strend (str : Str) (chr : Char) : Str := str.takeWhile (fun c => c != chr)

/-- Modelled from the spec: `remove_linefeed` of `util.c` ("strip line
terminator"): the string ends at the first newline. -/
def remove_linefeed (str : Str) : Str := strend str '\n'

/-- Modelled from the spec: `remove_quotes` of `util.c` ("surrounding quote
characters stripped"): the leading quote characters and a final quote character
are overwritten with blanks, which `g_strstrip` then removes. -/
def remove_quotes (str : Str) : Str :=
  let quote := Char.ofNat 34
  let lead := str.takeWhile (fun c => c = quote)
  let rest := str.dropWhile (fun c => c = quote)
  lead.map (fun _ => ' ') ++
    (match rest.reverse with
     | [] => []
     | c :: r => ((if c = quote then ' ' else c) :: r).reverse)

/-! ## Process state -/

/-- A hash table with string keys: the newest binding of a key comes first, so
`List.lookup` sees what `g_hash_table_lookup` returns. -/
abbrev Table (β : Type) := List (Str × β)

/-- The table in which `key` is bound to `value` and every other key is bound
as in `t`. -/
def hash_table_replace {β : Type} (t : Table β) (key : Str) (value : β) : Table β :=
  (key, value) :: t

/-- `g_hash_table_lookup`. -/
def g_hash_table_lookup {β : Type} (t : Table β) (key : Str) : Option β :=
  t.lookup key

/-- A value stored in `sensor_labels`: `NULL`, a string on the heap, or a
string literal of the program. -/
inductive LabelValue where
  | null
  | heap (text : Str)
  | literal (text : Str)
  deriving DecidableEq, Repr

/-- The string a stored value points to. -/
def LabelValue.text : LabelValue → Option Str
  | .null => none
  | .heap text => some text
  | .literal text => some text

/-- `g_free(value)` for a value of `sensor_labels`: nothing happens for `NULL`,
a heap string is released, and freeing a string literal is undefined
behaviour. -/
def g_free : LabelValue → Res Unit
  | .null => .ok ()
  | .heap _ => .ok ()
  | .literal _ => .error .fault

/-- `g_hash_table_insert(table, key, value)` on a table created with the value
destructor `value_destroy_func` (`none` for a table created by
`g_hash_table_new`): when the key is bound already, the value it replaces is
handed to the destructor, then the key is bound to the new value.
`sensors_init` creates `sensor_labels` by
`g_hash_table_new_full(g_str_hash, g_str_equal, g_free, g_free)` and
`sensor_compute` by `g_hash_table_new(g_str_hash, g_str_equal)`. -/
def g_hash_table_insert {β : Type} (value_destroy_func : Option (β → Res Unit))
    (t : Table β) (key : Str) (value : β) : Res (Table β) :=
  match value_destroy_func, g_hash_table_lookup t key with
  | some destroy, some old =>
    match destroy old with
    | .error e => .error e
    | .ok _ => .ok (hash_table_replace t key value)
  | _, _ => .ok (hash_table_replace t key value)

/-- Symbolic `double` values handed to `add_sensor`. -/
inductive Val where
  /-- an `int` converted to `double` -/
  | int (n : Int)
  /-- `atof(text)` -/
  | atof (text : Str)
  /-- `v / divisor` -/
  | div (v : Val) (divisor : Nat)
  /-- `math_postfix_eval(math_string_to_postfix(formula), v)` -/
  | postfix_eval (formula : Option Str) (v : Val)
  deriving DecidableEq, Repr

/-- The globals of the module and of the code it publishes to. -/
structure State where
  /-- `gchar *sensors` -/
  sensors : Str
  /-- `gchar *lginterval` (declared in `devices.h`) -/
  lginterval : Str
  /-- calls of `moreinfo_add_with_prefix("DEV", key, value)`, oldest first -/
  moreinfo : List (Str × Str)
  /-- `GHashTable *sensor_labels` -/
  sensor_labels : Table LabelValue
  /-- `GHashTable *sensor_compute`: under each key the formula string that
  was given to `math_string_to_postfix` -/
  sensor_compute : Table (Option Str)
  /-- `gboolean hwmon_first_run` -/
  hwmon_first_run : Bool
  deriving DecidableEq, Repr

/-- State right after `sensors_init`: empty tables, `hwmon_first_run = TRUE`. -/
def State.init : State :=
  { sensors := [], lginterval := [], moreinfo := [],
    sensor_labels := [], sensor_compute := [], hwmon_first_run := true }

/-- What the module reads of the file system. -/
structure FileSystem where
  /-- `fopen(path, "r")` and the bytes then read from the stream -/
  fopen : Str → Option Str
  /-- `g_file_test(path, G_FILE_TEST_EXISTS)` -/
  file_test_exists : Str → Bool
  /-- `g_file_read_link(path, NULL)` -/
  read_link : Str → Option Str
  /-- `g_file_get_contents(path, &contents, NULL, NULL)` -/
  get_contents : Str → Option Str
  /-- `g_dir_open(path, 0, NULL)` and the names `g_dir_read_name` returns -/
  dir_open : Str → Option (List Str)

/-! ## `read_sensor_labels` -/

/-- The token loop of a `label` line (source lines 61-71). -/
def label_names (driver : Str) : List Str → Option Str → Option Str → Option Str × Option Str
  | [], key, value => (key, value)
  | name :: names, key, value =>
    if name = [] then label_names driver names key value
    else
      match key, value with
      | none, _ => label_names driver names (some (driver ++ '/' :: name)) value
      | some k, none => label_names driver names (some k) (some name)
      | some k, some v => label_names driver names (some k) (some (v ++ ' ' :: name))

/-- The token loop of a `compute` line (source lines 89-101): it stops at the
first token that begins with a comma. -/
def compute_formulas (driver : Str) : List Str → Option Str → Option Str → Option Str × Option Str
  | [], key, formula => (key, formula)
  | f :: fs, key, formula =>
    if f = [] then compute_formulas driver fs key formula
    else if f.head? = some ',' then (key, formula)
    else
      match key, formula with
      | none, _ => compute_formulas driver fs (some (driver ++ '/' :: f)) formula
      | some k, none => compute_formulas driver fs (some k) (some f)
      | some k, some v => compute_formulas driver fs (some k) (some (v ++ f))

/-- The chip-name loop of a `chip` line (source lines 111-118) over
`chips[1..]`: `strend(chips[i], '*')`, then `chips[i] + 1` is tested for the
prefix `driver`.  For an empty token `chips[i] + 1` lies past its terminator.
For a token that begins with `*` the terminator written by `strend` is skipped
and the rest of the token is tested. -/
def chip_names (driver : Str) : List Str → Res Bool
  | [] => .ok false
  | [] :: _ => .error .fault
  | (c :: cs) :: chips =>
    if ( g_str_has_prefix (if c = '*' then cs else strend cs '*') driver) then .ok true
    else chip_names driver chips

/-- The value a `label` line stores (source lines 73-74): `remove_quotes(value)`
and `g_strstrip(value)` work in place on the string that `g_strdup` or
`g_strconcat` allocated, and leave `NULL` alone. -/
def stripped_label (value : Option Str) : LabelValue :=
  match value with
  | none => LabelValue.null
  | some v => LabelValue.heap (g_strstrip (remove_quotes v))

/-- The `while (fgets(buf, 256, conf))` loop of `read_sensor_labels` over the
buffers `fgets` returns, `lock` being the local variable of that name. -/
def read_sensor_labels_loop (driver : Str) : List Str → Bool → State → Res State
  | [], _, st => .ok st
  | buf :: bufs, lock, st =>
    let line := strend (remove_linefeed (c_str buf)) '#'
    if line = [] then read_sensor_labels_loop driver bufs lock st
    else if lock ∧ (strstr line "label".data).isSome then
      match label_names driver
          (g_strsplit (((strstr line "label".data).getD []).drop 5) ' ' 0) none none with
      | (none, _) => .error .fault
      | (some key, value) =>
        match g_hash_table_insert (some g_free) st.sensor_labels key (stripped_label value) with
        | .error e => .error e
        | .ok labels => read_sensor_labels_loop driver bufs lock { st with sensor_labels := labels }
    else if lock ∧ (strstr line "ignore".data).isSome then
      let p := ((strstr line "ignore".data).getD []).drop 6
      if (strchr p ' ').isNone then read_sensor_labels_loop driver bufs lock st
      else
        match g_hash_table_insert (some g_free) st.sensor_labels
            (driver ++ '/' :: p.dropWhile (fun c => c = ' '))
            (LabelValue.literal "ignore".data) with
        | .error e => .error e
        | .ok labels => read_sensor_labels_loop driver bufs lock { st with sensor_labels := labels }
    else if lock ∧ (strstr line "compute".data).isSome then
      match compute_formulas driver
          (g_strsplit (((strstr line "compute".data).getD []).drop 7) ' ' 0) none none with
      | (none, _) => .error .fault
      | (some key, formula) =>
        match g_hash_table_insert none st.sensor_compute key formula with
        | .error e => .error e
        | .ok compute =>
          read_sensor_labels_loop driver bufs lock { st with sensor_compute := compute }
    else if ( g_str_has_prefix line "chip".data) then
      if lock = false then
        match chip_names driver ((g_strsplit line ' ' 0).drop 1) with
        | .error e => .error e
        | .ok found => read_sensor_labels_loop driver bufs found st
      else .ok st
    else read_sensor_labels_loop driver bufs lock st

/-- `read_sensor_labels(driver)`: `/etc/sensors3.conf`, else `/etc/sensors.conf`,
else nothing is read. -/
def read_sensor_labels (fs : FileSystem) (driver : Str) (st : State) : Res State :=
  match (fs.fopen "/etc/sensors3.conf".data).orElse
      (fun _ => fs.fopen "/etc/sensors.conf".data) with
  | none => .ok st
  | some conf => read_sensor_labels_loop driver (fgets_all 256 255 conf) false st

/-- `get_sensor_label_from_conf(key)`. -/
def get_sensor_label_from_conf (st : State) (key : Str) : Option Str :=
  (g_hash_table_lookup st.sensor_labels key).bind LabelValue.text

/-! ## `add_sensor`, `adjust_sensor` -/

/-- The environment of a scan: the file system, the hddtemp daemon and the C
library's floating-point formatting. -/
structure Env where
  fs : FileSystem
  /-- `none` when `sock_connect("127.0.0.1", 7634)` fails; otherwise the bytes
  the successive `sock_read` calls deliver (an empty chunk is a read of length
  0, and every read after the last chunk has length 0) -/
  hddtemp : Option (List Str)
  /-- the `"%.2f"` conversion of a `double` -/
  printf_2f : Val → Str

/-- `add_sensor(type, sensor, driver, value, unit)`: one formatted record is
appended to `sensors` (`h_strdup_cprintf("%s/%s=%.2f%s|%s\n", ...)`), the key
is cut to the 63 characters that fit `char key[64]`, and one
`UpdateInterval` record is appended to `lginterval`. -/
def add_sensor (env : Env) (st : State) (type sensor driver : Str) (value : Val)
    (unit : Str) : State :=
  let key := (driver ++ '/' :: sensor).take 63
  { st with
    sensors := st.sensors ++
      (driver ++ '/' :: sensor ++ '=' :: env.printf_2f value ++ unit ++ '|' :: type ++ ['\n'])
    moreinfo := st.moreinfo ++ [(key, env.printf_2f value ++ unit)]
    lginterval := st.lginterval ++ ("UpdateInterval$".data ++ key ++ "=1000\n".data) }

/-- `adjust_sensor(key, value)`: without a compute entry the value itself,
otherwise the postfix program stored for the key applied to it. -/
def adjust_sensor (st : State) (key : Str) (value : Val) : Val :=
  match g_hash_table_lookup st.sensor_compute key with
  | none => value
  | some formula => Val.postfix_eval formula value

/-! ## The hwmon backend -/

/-- Arguments of a `printf`-style call. -/
inductive Arg where
  | s (v : Str)
  | d (v : Int)

/-- Expansion of a `printf` format made of text, `%s` and `%d`; `conv` tells
that the character before was the `%` of a conversion. -/
def printf_expand : Bool → Str → List Arg → Str
  | _, [], _ => []
  | false, c :: fmt, args =>
    if c = '%' then printf_expand true fmt args else c :: printf_expand false fmt args
  | true, c :: fmt, args =>
    match args with
    | Arg.s v :: rest =>
      if c = 's' then v ++ printf_expand false fmt rest else c :: printf_expand false fmt args
    | Arg.d v :: rest =>
      if c = 'd' then itoa v ++ printf_expand false fmt rest else c :: printf_expand false fmt args
    | [] => c :: printf_expand false fmt args

/-- `g_strdup_printf(format, ...)`. -/
def g_strdup_printf (format : Str) (args : List Arg) : Str := printf_expand false format args

/-- `get_sensor_path(number, prefix)`. -/
def get_sensor_path (number : Int) (pfx : Str) : Str :=
  g_strdup_printf "/sys/class/hwmon/hwmon%d/%s".data [Arg.d number, Arg.s pfx]

/-- `determine_driver_for_hwmon_path(path)`. -/
def determine_driver_for_hwmon_path (fs : FileSystem) (path : Str) : Str :=
  let driver :=
    match fs.read_link (g_strdup_printf "%s/device/driver".data [Arg.s path]) with
    | some driver => some (g_path_get_basename driver)
    | none => fs.read_link (g_strdup_printf "%s/device".data [Arg.s path])
  match driver with
  | some driver => driver
  | none =>
    match fs.get_contents (g_strdup_printf "%s/name".data [Arg.s path]) with
    | none => "unknown".data
    | some contents => g_strstrip (c_str contents)

/-- `struct HwmonSensor`. -/
structure HwmonSensor where
  friendly_name : Str
  value_file_regex : Str
  value_path_format : Str
  label_path_format : Option Str
  key_format : Str
  unit : Str
  adjust_ratio : Nat
  deriving DecidableEq

/-- The table `hwmon_sensors[]`, without its empty terminator. -/
def hwmon_sensors : List HwmonSensor :=
  [ { friendly_name := "Fan".data, value_file_regex := "^fan([0-9]+)_input$".data,
      value_path_format := "%s/fan%d_input".data,
      label_path_format := some "%s/fan%d_label".data,
      key_format := "fan%d".data, unit := "RPM".data, adjust_ratio := 1 },
    { friendly_name := "Temperature".data, value_file_regex := "^temp([0-9]+)_input$".data,
      value_path_format := "%s/temp%d_input".data,
      label_path_format := some "%s/temp%d_label".data,
      key_format := "temp%d".data, unit := "\xc2\xb0C".data, adjust_ratio := 1000 },
    { friendly_name := "Voltage".data, value_file_regex := "^in([0-9]+)_input$".data,
      value_path_format := "%s/in%d_input".data,
      label_path_format := some "%s/in%d_label".data,
      key_format := "in%d".data, unit := "V".data, adjust_ratio := 1000 },
    { friendly_name := "Current".data, value_file_regex := "^curr([0-9]+)_input$".data,
      value_path_format := "%s/curr%d_input".data,
      label_path_format := some "%s/curr%d_label".data,
      key_format := "curr%d".data, unit := "A".data, adjust_ratio := 1000 },
    { friendly_name := "Power".data, value_file_regex := "^power([0-9]+)_input$".data,
      value_path_format := "%s/power%d_input".data,
      label_path_format := some "%s/power%d_label".data,
      key_format := "power%d".data, unit := "W".data, adjust_ratio := 1000000 },
    { friendly_name := "Voltage".data, value_file_regex := "^cpu([0-9]+)_vid$".data,
      value_path_format := "%s/cpu%d_vid".data,
      label_path_format := none,
      key_format := "cpu%d_vid".data, unit := "V".data, adjust_ratio := 1000 } ]

/-- The array ` hwmon_prefix[]`, without its terminator. -/
def hwmon_prefix : List Str := ["device".data, []]

/-- `read_raw_hwmon_value(path_hwmon, item_path_format, item_id, &result)`. -/
def read_raw_hwmon_value (fs : FileSystem) (path_hwmon : Str)
    (item_path_format : Option Str) (item_id : Int) : Option Str :=
  match item_path_format with
  | none => none
  | some format => fs.get_contents (g_strdup_printf format [Arg.s path_hwmon, Arg.d item_id])

/-- Matching of the part of a pattern after `^` against a subject, for
patterns made of literal characters, the group `([0-9]+)` (greedy; every
pattern of the table continues with a character that is no digit) and a final
`$`, which also matches before a last newline.  `skip` counts the pattern
characters of a group still to be passed over, `cap` is the text captured. -/
def regex_match_from : Nat → Str → Str → Option Str → Option Str
  | _, [], _, cap => cap
  | skip + 1, _ :: pat, subject, cap => regex_match_from skip pat subject cap
  | 0, c :: pat, subject, cap =>
    if c = '$' ∧ pat = [] then
      if subject = [] ∨ subject = ['\n'] then cap else none
    else if c = '(' then
      if "[0-9]+)".data.isPrefixOf pat ∧ subject.takeWhile isdigit ≠ [] then
        regex_match_from 7 pat (subject.dropWhile isdigit) (some (subject.takeWhile isdigit))
      else none
    else
      match subject with
      | [] => none
      | x :: xs => if x = c then regex_match_from 0 pat xs cap else none

/-- `g_regex_match(regex, entry, 0, &match_info)` followed by
`g_match_info_fetch(match_info, 1)`: the text of the first group when the
entry matches, for the anchored patterns of `hwmon_sensors`. -/
def g_regex_match_fetch (regex entry : Str) : Option Str :=
  match regex with
  | '^' :: pat => regex_match_from 0 pat entry none
  | _ => none

/-- One step of the directory loop (source lines 323-338): the bounds after
one more entry. -/
def min_max_step (regex : Str) (mm : Int × Int) (entry : Str) : Int × Int :=
  match g_regex_match_fetch regex entry with
  | none => mm
  | some tmp =>
    let count := atoi tmp
    (if count < mm.1 then count else mm.1, if count > mm.2 then count else mm.2)

/-- The directory loop of one sensor kind: `min = 999`, `max = -1`, then every
entry in turn. -/
def hwmon_min_max (regex : Str) (entries : List Str) : Int × Int :=
  entries.foldl (min_max_step regex) (999, -1)

/-- The display name of a channel (source lines 346-356): the label of the
configuration file for `key`, else the stripped contents of the label file,
else the channel name `mon`. -/
def hwmon_channel_name (env : Env) (path_hwmon : Str) (sensor : HwmonSensor)
    (st : State) (count : Int) (mon key : Str) : Str :=
  match get_sensor_label_from_conf st key with
  | some name => name
  | none =>
    match read_raw_hwmon_value env.fs path_hwmon sensor.label_path_format count with
    | some name => g_strchomp (c_str name)
    | none => mon

/-- The body of the channel loop (source lines 342-372) for one `count`. -/
def hwmon_channel (env : Env) (path_hwmon driver : Str) (sensor : HwmonSensor)
    (st : State) (count : Int) : State :=
  match read_raw_hwmon_value env.fs path_hwmon (some sensor.value_path_format) count with
  | none => st
  | some tmp =>
    let mon := g_strdup_printf sensor.key_format [Arg.d count]
    let key := g_strdup_printf "%s/%s".data [Arg.s driver, Arg.s mon]
    let name := hwmon_channel_name env path_hwmon sensor st count mon key
    if name ≠ "ignore".data then
      add_sensor env st sensor.friendly_name name driver
        (adjust_sensor st key (Val.div (Val.atof (c_str tmp)) sensor.adjust_ratio))
        sensor.unit
    else st

/-- The call of `add_sensor` in the channel loop body (source lines 359-366)
for a channel whose value file is readable. -/
def hwmon_emit (env : Env) (path_hwmon driver : Str) (sensor : HwmonSensor)
    (st : State) (count : Int) : State :=
  let tmp :=
    (read_raw_hwmon_value env.fs path_hwmon (some sensor.value_path_format) count).getD []
  let mon := g_strdup_printf sensor.key_format [Arg.d count]
  let key := g_strdup_printf "%s/%s".data [Arg.s driver, Arg.s mon]
  add_sensor env st sensor.friendly_name
    (hwmon_channel_name env path_hwmon sensor st count mon key) driver
    (adjust_sensor st key (Val.div (Val.atof (c_str tmp)) sensor.adjust_ratio))
    sensor.unit

/-- The channel indices the directory loop meets: `atoi` of the text captured
in each entry that matches the pattern. -/
def matched_indices (regex : Str) (entries : List Str) : List Int :=
  entries.filterMap (fun e => (g_regex_match_fetch regex e).map atoi)

/-- The loop `for (count = min; count <= max; count++)` with `n` iterations
left, the next one for `count`. -/
def hwmon_channels (env : Env) (path_hwmon driver : Str) (sensor : HwmonSensor) :
    Nat → Int → State → State
  | 0, _, st => st
  | n + 1, count, st =>
    hwmon_channels env path_hwmon driver sensor n (count + 1)
      (hwmon_channel env path_hwmon driver sensor st count)

/-- One pass of the sensor-kind loop (source lines 310-374) for an opened
directory.  Every pattern of the table compiles, so `err` stays `NULL`.  With
`max = INT_MAX` the increment of `count` overflows. -/
def hwmon_sensor_kind (env : Env) (path_hwmon driver : Str) (entries : List Str)
    (st : State) (sensor : HwmonSensor) : Res State :=
  let mm := hwmon_min_max sensor.value_file_regex entries
  if mm.2 = 2147483647 then .error .fault
  else .ok (hwmon_channels env path_hwmon driver sensor (mm.2 + 1 - mm.1).toNat mm.1 st)

/-- The loop over `hwmon_sensors`. -/
def hwmon_sensor_kinds (env : Env) (path_hwmon driver : Str) (entries : List Str) :
    List HwmonSensor → State → Res State
  | [], st => .ok st
  | sensor :: sensors, st =>
    match hwmon_sensor_kind env path_hwmon driver entries st sensor with
    | .error e => .error e
    | .ok st => hwmon_sensor_kinds env path_hwmon driver entries sensors st

/-- The loop `while (path_hwmon && g_file_test(path_hwmon, G_FILE_TEST_EXISTS))`
(source lines 297-381) for one prefix, from index `hwmon` on.  The `continue`
after a failed `g_dir_open` re-enters the loop with the same index. -/
def hwmon_devices (env : Env) (pfx : Str) : Nat → Int → State → Res State
  | 0, _, _ => .error .fuel
  | fuel + 1, hwmon, st =>
    let path_hwmon := get_sensor_path hwmon pfx
    if env.fs.file_test_exists path_hwmon then
      let driver := determine_driver_for_hwmon_path env.fs path_hwmon
      match (if st.hwmon_first_run then read_sensor_labels env.fs driver st else .ok st) with
      | .error e => .error e
      | .ok st =>
        match env.fs.dir_open path_hwmon with
        | none => hwmon_devices env pfx fuel hwmon st
        | some entries =>
          match hwmon_sensor_kinds env path_hwmon driver entries hwmon_sensors st with
          | .error e => .error e
          | .ok st => hwmon_devices env pfx fuel (hwmon + 1) st
    else .ok st

/-- The loop over ` hwmon_prefix`. -/
def hwmon_prefixes (env : Env) (fuel : Nat) : List Str → State → Res State
  | [], st => .ok st
  | pfx :: rest, st =>
    match hwmon_devices env pfx fuel 0 st with
    | .error e => .error e
    | .ok st => hwmon_prefixes env fuel rest st

/-- `read_sensors_hwmon()`; `fuel` bounds the iterations of each device loop. -/
def read_sensors_hwmon (env : Env) (fuel : Nat) (st : State) : Res State :=
  match hwmon_prefixes env fuel ( hwmon_prefix) st with
  | .error e => .error e
  | .ok st => .ok { st with hwmon_first_run := false }

/-! ## The legacy thermal backends -/

/-- Decimal integer at the start of a string for the `%d` conversion of
`sscanf`: white space, an optional sign and at least one digit. -/
def scan_int (s : Str) : Option Int :=
  match s.dropWhile isspace with
  | '-' :: r => if (r.head?.map isdigit) = some true then some (atoi ('-' :: r)) else none
  | '+' :: r => if (r.head?.map isdigit) = some true then some (atoi r) else none
  | r => if (r.head?.map isdigit) = some true then some (atoi r) else none

/-- `sscanf(input, format, &n)` up to the first `%d` of the format: the value
assigned to `n`, or `none` when the input stops matching before it.  White
space in the format matches any amount of white space, any other character
matches itself; `conv` tells that the character before was a `%`. -/
def sscanf_d : Bool → Str → Str → Option Int
  | _, [], _ => none
  | true, _ :: _, input => scan_int input
  | false, c :: fmt, input =>
    if c = '%' then sscanf_d true fmt input
    else if isspace c then sscanf_d false fmt (input.dropWhile isspace)
    else
      match input with
      | [] => none
      | x :: xs => if x = c then sscanf_d false fmt xs else none

/-- The `int temperature` after `sscanf(contents, format, &temperature)`.  It
is declared without a value, so after a failed match it is indeterminate, and
the call of `add_sensor` that follows uses an indeterminate value: undefined
behaviour. -/
def scanned_temperature (format contents : Str) : Res Int :=
  match sscanf_d false format (c_str contents) with
  | some n => .ok n
  | none => .error .fault

/-- A loop `while ((entry = g_dir_read_name(tz)))` with the given body. -/
def dir_entries (body : State → Str → Res State) : List Str → State → Res State
  | [], st => .ok st
  | entry :: entries, st =>
    match body st entry with
    | .error e => .error e
    | .ok st => dir_entries body entries st

/-- The body of the directory loop of `read_sensors_acpi`. -/
def acpi_entry (env : Env) (path_tz : Str) (st : State) (entry : Str) : Res State :=
  match env.fs.get_contents
      (g_strdup_printf "%s/%s/temperature".data [Arg.s path_tz, Arg.s entry]) with
  | none => .ok st
  | some contents =>
    match scanned_temperature "temperature: %d C".data contents with
    | .error e => .error e
    | .ok temperature =>
      .ok (add_sensor env st "Temperature".data entry "ACPI Thermal Zone".data
        (Val.int temperature) "\xc2\xb0C".data)

/-- `read_sensors_acpi()`. -/
def read_sensors_acpi (env : Env) (st : State) : Res State :=
  let path_tz := "/proc/acpi/thermal_zone".data
  if env.fs.file_test_exists path_tz then
    match env.fs.dir_open path_tz with
    | none => .ok st
    | some tz => dir_entries (acpi_entry env path_tz) tz st
  else .ok st

/-- The body of the directory loop of `read_sensors_sys_thermal`. -/
def sys_thermal_entry (env : Env) (path_tz : Str) (st : State) (entry : Str) : Res State :=
  match env.fs.get_contents
      (g_strdup_printf "%s/%s/temp".data [Arg.s path_tz, Arg.s entry]) with
  | none => .ok st
  | some contents =>
    match scanned_temperature "%d".data contents with
    | .error e => .error e
    | .ok temperature =>
      .ok (add_sensor env st "Temperature".data entry "thermal".data
        (Val.div (Val.int temperature) 1000) "\xc2\xb0C".data)

/-- `read_sensors_sys_thermal()`. -/
def read_sensors_sys_thermal (env : Env) (st : State) : Res State :=
  let path_tz := "/sys/class/thermal".data
  if env.fs.file_test_exists path_tz then
    match env.fs.dir_open path_tz with
    | none => .ok st
    | some tz => dir_entries (sys_thermal_entry env path_tz) tz st
  else .ok st

/-- `read_sensors_omnibook()`. -/
def read_sensors_omnibook (env : Env) (st : State) : Res State :=
  match env.fs.get_contents "/proc/omnibook/temperature".data with
  | none => .ok st
  | some contents =>
    match scanned_temperature "CPU temperature: %d C".data contents with
    | .error e => .error e
    | .ok temperature =>
      .ok (add_sensor env st "Temperature".data "CPU".data "omnibook".data
        (Val.int temperature) "\xc2\xb0C\n".data)

/-! ## The hddtemp backend -/

/-- The loop over `disks` of `read_sensors_hddtemp` (source lines 489-507).
`disks[i] + 1` of an empty piece lies past its terminator, and `fields[3]` of a
record with fewer than four fields is `NULL` or lies past the vector. -/
def hddtemp_disks (env : Env) : List Str → State → Res State
  | [], st => .ok st
  | [] :: _, _ => .error .fault
  | (_ :: disk) :: disks, st =>
    match g_strsplit disk '|' 5 with
    | _ :: model :: temp :: code :: _ =>
      hddtemp_disks env disks
        (add_sensor env st "Hard Drive".data model "hddtemp".data (Val.int (atoi temp))
          (if code = "C".data then "\xc2\xb0F".data else "\xc2\xb0C".data))
    | _ => .error .fault

/-- `read_sensors_hddtemp()`.  The loop `while (!len)` ends at the first read
of non-zero length; when there is none it does not end. -/
def read_sensors_hddtemp (env : Env) (st : State) : Res State :=
  match env.hddtemp with
  | none => .ok st
  | some reads =>
    match reads.find? (fun chunk => chunk ≠ []) with
    | none => .error .fuel
    | some buffer =>
      if buffer.length > 2 ∧ buffer.head? = some '|' ∧ buffer.tail.head? = some '/' then
        hddtemp_disks env (g_strsplit (c_str buffer) '\n' 0) st
      else .ok st

/-! ## `scan_sensors_do` -/

/-- `scan_sensors_do()`. -/
def scan_sensors_do (env : Env) (fuel : Nat) (st : State) : Res State :=
  match read_sensors_hwmon env fuel { st with sensors := [], lginterval := [] } with
  | .error e => .error e
  | .ok st =>
    match read_sensors_acpi env st with
    | .error e => .error e
    | .ok st =>
      match read_sensors_sys_thermal env st with
      | .error e => .error e
      | .ok st =>
        match read_sensors_omnibook env st with
        | .error e => .error e
        | .ok st => read_sensors_hddtemp env st

/-! ## The hwmon scan that leaves one channel out -/

/-- The state `s` with the tables of `r` put in front of its own. -/
def graft (s r : State) : State :=
  { s with sensor_labels := r.sensor_labels ++ s.sensor_labels
           sensor_compute := r.sensor_compute ++ s.sensor_compute }

/-- The key `k` belongs to the driver `d`: it starts with `d` and a slash. -/
def under (d k : Str) : Prop := (d ++ ['/']) <+: k

/-- The tables `read_sensor_labels` builds for a driver from empty tables. -/
def conf_state (fs : FileSystem) (d : Str) : State :=
  match read_sensor_labels fs d State.init with
  | .ok s => s
  | .error _ => State.init

/-- The entries of the driver `d` are those of its configuration block. -/
def settled (fs : FileSystem) (d : Str) (s : State) : Prop :=
  ∀ k, under d k →
    g_hash_table_lookup s.sensor_labels k = g_hash_table_lookup (conf_state fs d).sensor_labels k ∧
    g_hash_table_lookup s.sensor_compute k
      = g_hash_table_lookup (conf_state fs d).sensor_compute k

/-- The tables hold no entry of the driver `d`. -/
def untouched (d : Str) (s : State) : Prop :=
  ∀ k, under d k →
    g_hash_table_lookup s.sensor_labels k = none ∧ g_hash_table_lookup s.sensor_compute k = none

/-- The two states hold the same entries for the driver `d`. -/
def agree (d : Str) (s s' : State) : Prop :=
  ∀ k, under d k →
    g_hash_table_lookup s.sensor_labels k = g_hash_table_lookup s'.sensor_labels k ∧
    g_hash_table_lookup s.sensor_compute k = g_hash_table_lookup s'.sensor_compute k

/-- The two states publish the same text. -/
def text_eq (s s' : State) : Prop :=
  s.sensors = s'.sensors ∧ s.lginterval = s'.lginterval

/-- The tables and the first-run flag of `f` are those of `s`. -/
def same_tables (s f : State) : Prop :=
  f.sensor_labels = s.sensor_labels ∧ f.sensor_compute = s.sensor_compute ∧
    f.hwmon_first_run = s.hwmon_first_run

/-- The drivers of the hwmon paths that exist. -/
def scanned_driver (env : Env) (d : Str) : Prop :=
  ∃ (i : Int) (pfx : Str), pfx ∈ hwmon_prefix ∧
    env.fs.file_test_exists (get_sensor_path i pfx) = true ∧
    d = determine_driver_for_hwmon_path env.fs (get_sensor_path i pfx)

/-! ## Inputs of the examples -/

/-- A file system that holds nothing but a configuration file
`/etc/sensors3.conf` with the given bytes. -/
def conf_only (conf : Str) : FileSystem :=
  { fopen := fun p => if p = "/etc/sensors3.conf".data then some conf else none
    file_test_exists := fun _ => false
    read_link := fun _ => none
    get_contents := fun _ => none
    dir_open := fun _ => none }

/-- A hwmon device whose `device` entry is a symbolic link and which has no
`device/driver` link. -/
def fs_device_link : FileSystem :=
  { conf_only [] with
    read_link := fun p =>
      if p = "/sys/class/hwmon/hwmon0//device".data then
        some "../../devices/platform/coretemp.0".data
      else none }

/-- A hwmon device without links whose `name` file holds `acme-chip` and a
newline. -/
def fs_name_file : FileSystem :=
  { conf_only [] with
    get_contents := fun p =>
      if p = "/sys/class/hwmon/hwmon0//name".data then some "acme-chip\n".data else none }

/-- The path `/sys/class/hwmon/hwmon0/device` exists and cannot be opened as a
directory; there is no configuration file. -/
def fs_unreadable_dir : FileSystem :=
  { fopen := fun _ => none
    file_test_exists := fun p => p = "/sys/class/hwmon/hwmon0/device".data
    read_link := fun _ => none
    get_contents := fun _ => none
    dir_open := fun _ => none }

/-- Only `/proc/omnibook/temperature` can be read. -/
def fs_omnibook : FileSystem :=
  { conf_only [] with
    get_contents := fun p =>
      if p = "/proc/omnibook/temperature".data then some "CPU temperature: 45 C\n".data
      else none }

/-- The entry of `hwmon_sensors` for temperatures. -/
def temp_sensor : HwmonSensor :=
  { friendly_name := "Temperature".data, value_file_regex := "^temp([0-9]+)_input$".data,
    value_path_format := "%s/temp%d_input".data,
    label_path_format := some "%s/temp%d_label".data,
    key_format := "temp%d".data, unit := "\xc2\xb0C".data, adjust_ratio := 1000 }

/-- The `"%.2f"` conversion on the readings of the examples, all of which have
the value zero (their value files hold `0`): it prints `0.00`. -/
def printf_2f_zero : Val → Str := fun _ => "0.00".data

/-- A device `hwmon0` under the bare hwmon root with the name `d`, the value
files `temp1_input` and `temp2_input` and the label file `temp2_label`; the
configuration file is a block for `d` made of the given lines. -/
def fs_ignore_temp2 (block : Str) : FileSystem :=
  { fopen := fun p =>
      if p = "/etc/sensors3.conf".data then some ("chip \"d\"\n".data ++ block) else none
    file_test_exists := fun p => p = "/sys/class/hwmon/hwmon0/".data
    read_link := fun _ => none
    get_contents := fun p =>
      if p = "/sys/class/hwmon/hwmon0//name".data then some "d\n".data
      else if p = "/sys/class/hwmon/hwmon0//temp1_input".data then some "0\n".data
      else if p = "/sys/class/hwmon/hwmon0//temp2_input".data then some "0\n".data
      else if p = "/sys/class/hwmon/hwmon0//temp2_label".data then some "Core\n".data
      else none
    dir_open := fun p =>
      if p = "/sys/class/hwmon/hwmon0/".data then
        some ["name".data, "temp1_input".data, "temp2_input".data, "temp2_label".data]
      else none }

/-- A device directory `hwmon0` that lists `temp1_input`, `temp3_input`,
`temp1_label` and `name`; the two value files hold `0`. -/
def fs_two_temps : FileSystem :=
  { conf_only [] with
    get_contents := fun p =>
      if p = "/sys/class/hwmon/hwmon0//temp1_input".data then some "0\n".data
      else if p = "/sys/class/hwmon/hwmon0//temp3_input".data then some "0\n".data
      else none
    dir_open := fun p =>
      if p = "/sys/class/hwmon/hwmon0/".data then
        some ["temp1_input".data, "temp3_input".data, "temp1_label".data, "name".data]
      else none }

/-- Two devices under the bare hwmon root.  `hwmon0` has no `device/driver`
link and a `device` link to `bus/chip`, and holds `temp1_input`; `hwmon1` has
the name `bus`.  The configuration file has a block for `bus` that labels
`chip/temp1`. -/
def fs_nested_drivers : FileSystem :=
  { fopen := fun p =>
      if p = "/etc/sensors3.conf".data then
        some "chip \"bus-*\"\nlabel chip/temp1 CPU\n".data
      else none
    file_test_exists := fun p =>
      p = "/sys/class/hwmon/hwmon0/".data || p = "/sys/class/hwmon/hwmon1/".data
    read_link := fun p =>
      if p = "/sys/class/hwmon/hwmon0//device".data then some "bus/chip".data else none
    get_contents := fun p =>
      if p = "/sys/class/hwmon/hwmon0//temp1_input".data then some "0\n".data
      else if p = "/sys/class/hwmon/hwmon1//name".data then some "bus\n".data
      else none
    dir_open := fun p =>
      if p = "/sys/class/hwmon/hwmon0/".data then some ["temp1_input".data, "device".data]
      else if p = "/sys/class/hwmon/hwmon1/".data then some ["name".data]
      else none }

/-- Two devices under the bare hwmon root, named `coretemp` and `acpitz`, each
with a `temp1_input` that holds `0`; the configuration file labels `temp1` of
`coretemp`. -/
def fs_two_devices : FileSystem :=
  { fopen := fun p =>
      if p = "/etc/sensors3.conf".data then
        some "chip \"coretemp-*\"\nlabel temp1 \"Core 0\"\n".data
      else none
    file_test_exists := fun p =>
      p = "/sys/class/hwmon/hwmon0/".data || p = "/sys/class/hwmon/hwmon1/".data
    read_link := fun _ => none
    get_contents := fun p =>
      if p = "/sys/class/hwmon/hwmon0//temp1_input".data then some "0\n".data
      else if p = "/sys/class/hwmon/hwmon0//name".data then some "coretemp\n".data
      else if p = "/sys/class/hwmon/hwmon1//temp1_input".data then some "0\n".data
      else if p = "/sys/class/hwmon/hwmon1//name".data then some "acpitz\n".data
      else none
    dir_open := fun p =>
      if p = "/sys/class/hwmon/hwmon0/".data then some ["name".data, "temp1_input".data]
      else if p = "/sys/class/hwmon/hwmon1/".data then some ["name".data, "temp1_input".data]
      else none }

/-- The state after the first scan of `fs_two_devices`. -/
def first_scan_two_devices : State :=
  { sensors := "coretemp/Core 0=0.00\xc2\xb0C|Temperature\nacpitz/temp1=0.00\xc2\xb0C|Temperature\n".data
    lginterval := "UpdateInterval$coretemp/Core 0=1000\nUpdateInterval$acpitz/temp1=1000\n".data
    moreinfo := [("coretemp/Core 0".data, "0.00\xc2\xb0C".data),
      ("acpitz/temp1".data, "0.00\xc2\xb0C".data)]
    sensor_labels := [("coretemp/temp1".data, LabelValue.heap "Core 0".data)]
    sensor_compute := []
    hwmon_first_run := false }

/-- Two devices under the bare hwmon root, both with the name `d`; the
configuration file has a block for `d` with the line `ignore temp2`. -/
def fs_same_driver_twice : FileSystem :=
  { fopen := fun p =>
      if p = "/etc/sensors3.conf".data then some "chip \"d\"\nignore temp2\n".data else none
    file_test_exists := fun p =>
      p = "/sys/class/hwmon/hwmon0/".data || p = "/sys/class/hwmon/hwmon1/".data
    read_link := fun _ => none
    get_contents := fun p =>
      if p = "/sys/class/hwmon/hwmon0//name".data then some "d\n".data
      else if p = "/sys/class/hwmon/hwmon1//name".data then some "d\n".data
      else none
    dir_open := fun p =>
      if p = "/sys/class/hwmon/hwmon0/".data then some ["name".data]
      else if p = "/sys/class/hwmon/hwmon1/".data then some ["name".data]
      else none }

/-- Only `/proc/omnibook/temperature` can be read, and it holds no number. -/
def fs_omnibook_unmatched : FileSystem :=
  { conf_only [] with
    get_contents := fun p =>
      if p = "/proc/omnibook/temperature".data then some "CPU temperature: n/a\n".data
      else none }

/-- An environment with the given file system and daemon answer. -/
def env_of (fs : FileSystem) (hddtemp : Option (List Str)) (printf_2f : Val → Str) : Env :=
  { fs := fs, hddtemp := hddtemp, printf_2f := printf_2f }

/-! ## Theorems -/

/-- C1, as stated: after the lines `chip driverX` and `label in0 "Core 0"` the
label of `driverX/in0` is still unset, because the chip name is compared from
its second character on. -/
theorem plain_chip_line_stores_no_label :
    (read_sensor_labels (conf_only "chip driverX\nlabel in0 \"Core 0\"\n".data)
        "driverX".data State.init).map
      (fun st => get_sensor_label_from_conf st "driverX/in0".data) = .ok none := by
  decide

/-- C3, as stated: for the listing `fan1000_input` the only captured index is
1000, yet the lower bound of the channel loop is 999. -/
theorem min_bound_is_999_for_index_1000 :
    ["fan1000_input".data].filterMap
        (fun e => (g_regex_match_fetch "^fan([0-9]+)_input$".data e).map atoi) = [1000] ∧
      hwmon_min_max "^fan([0-9]+)_input$".data ["fan1000_input".data] = (999, 1000) := by
  decide

/-- C4: with no `device/driver` link and a `device` link to
`../../devices/platform/coretemp.0` the driver is the whole link target, not
its last component `coretemp.0`; with no link at all and a `name` file
`acme-chip` the driver is `acme-chip`. -/
theorem device_link_target_is_returned_whole :
    determine_driver_for_hwmon_path fs_device_link "/sys/class/hwmon/hwmon0/".data
        = "../../devices/platform/coretemp.0".data ∧
      g_path_get_basename "../../devices/platform/coretemp.0".data = "coretemp.0".data ∧
      determine_driver_for_hwmon_path fs_name_file "/sys/class/hwmon/hwmon0/".data
        = "acme-chip".data := by
  decide

/-- C5: on the daemon answer `|/dev/sda|Model X|37|C` followed by a newline the
loop over the records reaches the empty piece after the newline and reads past
its end; without the newline the single reading is published. -/
theorem hddtemp_trailing_newline_faults (printf_2f : Val → Str) (st : State) :
    read_sensors_hddtemp
        (env_of (conf_only []) (some ["|/dev/sda|Model X|37|C\n".data]) printf_2f) st
      = .error .fault ∧
    read_sensors_hddtemp
        (env_of (conf_only []) (some ["|/dev/sda|Model X|37|C".data]) printf_2f) st
      = .ok (add_sensor (env_of (conf_only []) (some ["|/dev/sda|Model X|37|C".data]) printf_2f)
          st "Hard Drive".data "Model X".data "hddtemp".data (Val.int 37) "\xc2\xb0F".data) :=
  ⟨rfl, rfl⟩

/-- C7: the line `compute in0 @*2, @/2` stores a formula that still holds the
comma and the reverse formula; with the comma at the start of a token of its
own, `compute in1 @*2 , @/2` stores the forward formula alone. -/
theorem compute_keeps_text_after_attached_comma :
    (read_sensor_labels
        (conf_only "chip \"d\"\ncompute in0 @*2, @/2\ncompute in1 @*2 , @/2\n".data)
        "d".data State.init).map (fun st => st.sensor_compute)
      = .ok [("d/in1".data, some "@*2".data), ("d/in0".data, some "@*2,@/2".data)] := by
  decide

/-- C8: the record that `read_sensors_omnibook` appends ends its unit with a
newline, so the category stands on a line of its own. -/
theorem omnibook_unit_ends_with_newline (printf_2f : Val → Str) (st : State) :
    (read_sensors_omnibook (env_of fs_omnibook none printf_2f) st).map (fun s => s.sensors)
      = .ok (st.sensors ++ ("omnibook/CPU=".data ++ printf_2f (Val.int 45) ++
          "\xc2\xb0C\n|Temperature\n".data)) := by
  have h : scanned_temperature "CPU temperature: %d C".data "CPU temperature: 45 C\n".data
      = .ok 45 := by decide
  have hc : (env_of fs_omnibook none printf_2f).fs.get_contents "/proc/omnibook/temperature".data
      = some "CPU temperature: 45 C\n".data := by
    simp [env_of, fs_omnibook]
  unfold read_sensors_omnibook
  rw [hc]
  simp only [h]
  simp [Except.map, add_sensor, env_of]

/-- C10: after the block of `d` is open, the line `chip "label-x" "y"` is read
as a label line and the line after it is still stored; a chip line without the
words `label`, `ignore` and `compute` ends the parsing. -/
theorem chip_line_with_label_in_name_does_not_end_block :
    (read_sensor_labels
        (conf_only "chip \"d\"\nchip \"label-x\" \"y\"\nlabel in0 Z\n".data)
        "d".data State.init).map (fun st => st.sensor_labels)
      = .ok [("d/in0".data, LabelValue.heap "Z".data),
          ("d/-x\"".data, LabelValue.heap "y".data)] ∧
    (read_sensor_labels
        (conf_only "chip \"d\"\nchip \"other-x\" \"y\"\nlabel in0 Z\n".data)
        "d".data State.init).map (fun st => st.sensor_labels)
      = .ok [] := by
  decide

/-- The first path probed by the scan. -/
theorem get_sensor_path_zero_device :
    get_sensor_path 0 "device".data = "/sys/class/hwmon/hwmon0/device".data := by decide

/-- The device loop of the prefix `device` never leaves index 0 when the
directory cannot be opened. -/
theorem hwmon_devices_unreadable_dir (hddtemp : Option (List Str)) (printf_2f : Val → Str)
    (fuel : Nat) (st : State) :
    hwmon_devices (env_of fs_unreadable_dir hddtemp printf_2f) "device".data fuel 0 st
      = .error .fuel := by
  induction fuel generalizing st with
  | zero => rfl
  | succ n ih =>
    have hl : ∀ d, read_sensor_labels fs_unreadable_dir d st = .ok st := fun _ => rfl
    rw [hwmon_devices, get_sensor_path_zero_device]
    simp only [env_of, fs_unreadable_dir, decide_True, if_true, hl]
    cases st.hwmon_first_run <;> simp <;> exact ih st

/-- C6: when `/sys/class/hwmon/hwmon0/device` exists and cannot be opened, no
amount of fuel lets `read_sensors_hwmon` return: the `continue` probes the same
index again. -/
theorem hwmon_scan_never_ends_on_unopenable_directory (hddtemp : Option (List Str))
    (printf_2f : Val → Str) (fuel : Nat) (st : State) :
    read_sensors_hwmon (env_of fs_unreadable_dir hddtemp printf_2f) fuel st = .error .fuel := by
  unfold read_sensors_hwmon hwmon_prefix
  rw [hwmon_prefixes, hwmon_devices_unreadable_dir]

theorem insert_compute {β : Type} (t : Table β) (key : Str) (value : β) :
    g_hash_table_insert none t key value = .ok (hash_table_replace t key value) := by
  unfold g_hash_table_insert
  rfl

/-- A store into `sensor_labels` succeeds exactly when the key is not bound to
a string literal, and then binds the key in front of the table. -/
theorem insert_labels_ok (t : Table LabelValue) (key : Str) (v : LabelValue)
    (labels : Table LabelValue)
    (h : g_hash_table_insert (some g_free) t key v = .ok labels) :
    labels = hash_table_replace t key v ∧
      ∀ x, g_hash_table_lookup t key ≠ some (LabelValue.literal x) := by
  unfold g_hash_table_insert at h
  cases hl : g_hash_table_lookup t key with
  | none =>
    rw [hl] at h
    simp at h
    exact ⟨h.symm, fun x => by simp⟩
  | some old =>
    rw [hl] at h
    cases old with
    | null => simp [g_free] at h; exact ⟨h.symm, fun x => by simp⟩
    | heap text => simp [g_free] at h; exact ⟨h.symm, fun x => by simp⟩
    | literal text => simp [g_free] at h

theorem insert_labels_of (t : Table LabelValue) (key : Str) (v : LabelValue)
    (h : ∀ x, g_hash_table_lookup t key ≠ some (LabelValue.literal x)) :
    g_hash_table_insert (some g_free) t key v = .ok (hash_table_replace t key v) := by
  unfold g_hash_table_insert
  cases hl : g_hash_table_lookup t key with
  | none => rfl
  | some old =>
    cases old with
    | null => rfl
    | heap text => rfl
    | literal text => exact absurd hl (h text)

theorem strend_append_of_not_mem (l r : Str) (c : Char) (h : c ∉ l) :
    strend (l ++ c :: r) c = l := by
  induction l with
  | nil => simp [strend]
  | cons x xs ih =>
    have hx : x ≠ c := fun e => h (by simp [e])
    have hxs : c ∉ xs := fun e => h (by simp [e])
    simp only [strend] at ih ⊢
    simp [List.takeWhile_cons, hx, ih hxs]

theorem strend_of_not_mem (l : Str) (c : Char) (h : c ∉ l) : strend l c = l := by
  induction l with
  | nil => simp [strend]
  | cons x xs ih =>
    have hx : x ≠ c := fun e => h (by simp [e])
    have hxs : c ∉ xs := fun e => h (by simp [e])
    simp only [strend] at ih ⊢
    simp [List.takeWhile_cons, hx, ih hxs]

theorem c_str_of_not_mem (l : Str) (h : Char.ofNat 0 ∉ l) : c_str l = l :=
  strend_of_not_mem l _ h

theorem fgets_all_line (size : Nat) (l rest : Str) (hl : '\n' ∉ l) :
    ∀ room, l.length < room →
      fgets_all size room (l ++ '\n' :: rest) = (l ++ ['\n']) :: fgets_all size (size - 1) rest := by
  induction l with
  | nil => intro room _; simp [fgets_all]
  | cons x xs ih =>
    intro room hroom
    have hx : x ≠ '\n' := fun e => hl (by simp [e])
    have hxs : '\n' ∉ xs := fun e => hl (by simp [e])
    have h1 : ¬ room ≤ 1 := by simp at hroom; omega
    have h2 : xs.length < room - 1 := by simp at hroom; omega
    simp [fgets_all, hx, h1, ih hxs (room - 1) h2]

theorem strsplit_pieces_of_not_mem (delim : Char) (l : Str) (h : delim ∉ l) :
    ∀ n, strsplit_pieces delim n l = [l] := by
  induction l with
  | nil => intro n; simp [strsplit_pieces]
  | cons x xs ih =>
    intro n
    have hx : x ≠ delim := fun e => h (by simp [e])
    have hxs : delim ∉ xs := fun e => h (by simp [e])
    cases n with
    | zero => simp [strsplit_pieces]
    | succ n => simp [strsplit_pieces, hx, ih hxs]

theorem strsplit_pieces_append (delim : Char) (l r : Str) (h : delim ∉ l) :
    ∀ k, strsplit_pieces delim (k + 1) (l ++ delim :: r) = l :: strsplit_pieces delim k r := by
  induction l with
  | nil => intro k; simp [strsplit_pieces]
  | cons x xs ih =>
    intro k
    have hx : x ≠ delim := fun e => h (by simp [e])
    have hxs : delim ∉ xs := fun e => h (by simp [e])
    simp [strsplit_pieces, hx, ih hxs k]

theorem loop_chip_unlocked (d buf line : Str) (bufs : List Str) (st : State) (found : Bool)
    (h1 : strend (remove_linefeed (c_str buf)) '#' = line) (h2 : line ≠ [])
    (h3 : g_str_has_prefix line "chip".data = true)
    (h4 : chip_names d ((g_strsplit line ' ' 0).drop 1) = .ok found) :
    read_sensor_labels_loop d (buf :: bufs) false st = read_sensor_labels_loop d bufs found st := by
  rw [read_sensor_labels_loop]
  simp only [h1, h2, h3, h4]
  simp

theorem loop_label_locked (d buf line m key : Str) (value : Option Str) (bufs : List Str)
    (st : State)
    (h1 : strend (remove_linefeed (c_str buf)) '#' = line) (h2 : line ≠ [])
    (h3 : strstr line "label".data = some m)
    (h4 : label_names d (g_strsplit (m.drop 5) ' ' 0) none none = (some key, value)) :
    read_sensor_labels_loop d (buf :: bufs) true st =
      (g_hash_table_insert (some g_free) st.sensor_labels key (stripped_label value)).bind
        (fun labels => read_sensor_labels_loop d bufs true { st with sensor_labels := labels }) := by
  rw [read_sensor_labels_loop]
  simp only [h1, h2, h3, Option.getD_some, h4]
  cases g_hash_table_insert (some g_free) st.sensor_labels key (stripped_label value) <;>
    simp [Except.bind]

theorem quoted_chip_line_opens_block (d : Str)
    (hd : ∀ c ∈ d, c ≠ ' ' ∧ c ≠ '#' ∧ c ≠ '*' ∧ c ≠ '\n' ∧ c ≠ Char.ofNat 0)
    (hlen : d.length ≤ 247) :
    (read_sensor_labels
        (conf_only ("chip \"".data ++ d ++ "\"\nlabel in0 \"Core 0\"\n".data)) d
        State.init).map (fun st => get_sensor_label_from_conf st (d ++ "/in0".data))
      = .ok (some "Core 0".data) := by
  have hconf : "chip \"".data ++ d ++ "\"\nlabel in0 \"Core 0\"\n".data
      = ("chip \"".data ++ d ++ "\"".data) ++ '\n' :: ("label in0 \"Core 0\"".data ++ '\n' :: []) := by
    simp
  have hnl : '\n' ∉ "chip \"".data ++ d ++ "\"".data := by
    simp; intro h; exact (hd _ h).2.2.2.1 rfl
  have hbufs : fgets_all 256 255 ("chip \"".data ++ d ++ "\"\nlabel in0 \"Core 0\"\n".data)
      = [("chip \"".data ++ d ++ "\"".data) ++ ['\n'], "label in0 \"Core 0\"\n".data] := by
    rw [hconf, fgets_all_line _ _ _ hnl _ (by simp; omega)]
    simp; decide
  have hnul : Char.ofNat 0 ∉ ("chip \"".data ++ d ++ "\"".data) ++ ['\n'] := by
    simp; intro h; exact (hd _ h).2.2.2.2 rfl
  have hhash : '#' ∉ "chip \"".data ++ d ++ "\"".data := by
    simp; intro h; exact (hd _ h).2.1 rfl
  have hsp : ' ' ∉ Char.ofNat 34 :: (d ++ "\"".data) := by
    simp; intro h; exact (hd _ h).1 rfl
  have hstar : '*' ∉ d ++ "\"".data := by
    simp; intro h; exact (hd _ h).2.2.1 rfl
  have hline1 : strend (remove_linefeed (c_str (("chip \"".data ++ d ++ "\"".data) ++ ['\n']))) '#'
      = "chip \"".data ++ d ++ "\"".data := by
    rw [c_str_of_not_mem _ hnul, remove_linefeed, strend_append_of_not_mem _ _ _ hnl,
      strend_of_not_mem _ _ hhash]
  have hsplit : g_strsplit ("chip \"".data ++ d ++ "\"".data) ' ' 0
      = ["chip".data, Char.ofNat 34 :: (d ++ "\"".data)] := by
    have e : "chip \"".data ++ d ++ "\"".data
        = "chip".data ++ ' ' :: (Char.ofNat 34 :: (d ++ "\"".data)) := by simp
    rw [e]
    unfold g_strsplit
    have hlen2 : ("chip".data ++ ' ' :: (Char.ofNat 34 :: (d ++ "\"".data))).length
        = (d.length + 6) + 1 := by simp
    rw [if_neg (by simp), if_pos (by decide), hlen2,
      strsplit_pieces_append _ _ _ (by decide), strsplit_pieces_of_not_mem _ _ hsp]
  have hchip : chip_names d ((g_strsplit ("chip \"".data ++ d ++ "\"".data) ' ' 0).drop 1)
      = .ok true := by
    rw [hsplit]
    have hc : (if Char.ofNat 34 = '*' then d ++ "\"".data else strend (d ++ "\"".data) '*')
        = d ++ "\"".data := by
      rw [if_neg (by decide), strend_of_not_mem _ _ hstar]
    have hp : g_str_has_prefix (d ++ "\"".data) d = true := by
      simp [ g_str_has_prefix, List.isPrefixOf_iff_prefix]
    simp only [List.drop_succ_cons, List.drop_zero, chip_names, hc, hp, if_true]
  unfold read_sensor_labels
  have hopen : ((conf_only ("chip \"".data ++ d ++ "\"\nlabel in0 \"Core 0\"\n".data)).fopen
      "/etc/sensors3.conf".data).orElse
        (fun _ => (conf_only ("chip \"".data ++ d ++ "\"\nlabel in0 \"Core 0\"\n".data)).fopen
          "/etc/sensors.conf".data)
      = some ("chip \"".data ++ d ++ "\"\nlabel in0 \"Core 0\"\n".data) := by
    simp [conf_only]
  rw [hopen]
  simp only [hbufs]
  rw [loop_chip_unlocked d _ _ _ _ true hline1 (by simp) (by simp [ g_str_has_prefix]) hchip]
  rw [loop_label_locked d _ "label in0 \"Core 0\"".data "label in0 \"Core 0\"".data
    (d ++ '/' :: "in0".data) (some "\"Core 0\"".data) _ _ (by decide) (by decide) (by decide)
    (by
      have hs : g_strsplit (("label in0 \"Core 0\"".data).drop 5) ' ' 0
          = [[], "in0".data, "\"Core".data, "0\"".data] := by decide
      rw [hs]
      simp [label_names])]
  have hv : stripped_label (some "\"Core 0\"".data) = LabelValue.heap "Core 0".data := by decide
  have hins : g_hash_table_insert (some g_free) State.init.sensor_labels
      (d ++ '/' :: "in0".data) (LabelValue.heap "Core 0".data)
      = .ok (hash_table_replace [] (d ++ '/' :: "in0".data) (LabelValue.heap "Core 0".data)) :=
    insert_labels_of _ _ _ (by simp [State.init, g_hash_table_lookup])
  simp only [hv, hins, Except.bind, read_sensor_labels_loop, Except.map]
  simp [get_sensor_label_from_conf, g_hash_table_lookup, hash_table_replace, List.lookup,
    LabelValue.text]

theorem isdigit_ofNat (k : Nat) (hk : k < 10) : isdigit (Char.ofNat (48 + k)) = true := by
  interval_cases k <;> decide

/-- The three formats of a sensor kind share a stem `a`; the value file ends
in `b`, the key in `b2`. -/
theorem hwmon_sensor_shape (sensor : HwmonSensor) (hs : sensor ∈ hwmon_sensors) :
    ∃ a b b2 : Str,
      sensor.value_file_regex = '^' :: (a ++ ("([0-9]+)".data ++ (b ++ ['$']))) ∧
      (∀ path n, g_strdup_printf sensor.value_path_format [Arg.s path, Arg.d n]
        = path ++ '/' :: (a ++ (itoa n ++ b))) ∧
      (∀ n, g_strdup_printf sensor.key_format [Arg.d n] = a ++ (itoa n ++ b2)) ∧
      (∀ c ∈ a ++ (b ++ b2), c ∈ "abcdefghijkmnopqrstuvwxyz_".data) ∧ b ≠ [] := by
  simp only [hwmon_sensors, List.mem_cons, List.mem_singleton, List.not_mem_nil, or_false] at hs
  rcases hs with rfl | rfl | rfl | rfl | rfl | rfl
  · exact ⟨"fan".data, "_input".data, [], rfl, by intros; simp [g_strdup_printf, printf_expand],
      by intros; simp [g_strdup_printf, printf_expand], by decide, by decide⟩
  · exact ⟨"temp".data, "_input".data, [], rfl, by intros; simp [g_strdup_printf, printf_expand],
      by intros; simp [g_strdup_printf, printf_expand], by decide, by decide⟩
  · exact ⟨"in".data, "_input".data, [], rfl, by intros; simp [g_strdup_printf, printf_expand],
      by intros; simp [g_strdup_printf, printf_expand], by decide, by decide⟩
  · exact ⟨"curr".data, "_input".data, [], rfl, by intros; simp [g_strdup_printf, printf_expand],
      by intros; simp [g_strdup_printf, printf_expand], by decide, by decide⟩
  · exact ⟨"power".data, "_input".data, [], rfl, by intros; simp [g_strdup_printf, printf_expand],
      by intros; simp [g_strdup_printf, printf_expand], by decide, by decide⟩
  · exact ⟨"cpu".data, "_vid".data, "_vid".data, rfl,
      by intros; simp [g_strdup_printf, printf_expand],
      by intros; simp [g_strdup_printf, printf_expand], by decide, by decide⟩

theorem printf_key (d m : Str) :
    g_strdup_printf ['%', 's', '/', '%', 's'] [Arg.s d, Arg.s m] = d ++ '/' :: m := by
  simp [g_strdup_printf, printf_expand]

theorem under_key (d name : Str) : under d (d ++ '/' :: name) := by
  unfold under
  exact ⟨name, by simp⟩

theorem label_names_key (d : Str) :
    ∀ (names : List Str) (key value : Option Str),
      (∀ k, key = some k → under d k) →
      ∀ k, (label_names d names key value).1 = some k → under d k := by
  intro names
  induction names with
  | nil => intro key value hk k h; exact hk k (by simpa [label_names] using h)
  | cons n ns ih =>
    intro key value hk k h
    by_cases hn : n = []
    · cases key <;> cases value <;> simp only [label_names, hn, if_true] at h <;>
        exact ih _ _ hk k h
    · cases key with
      | none =>
        cases value <;> simp only [label_names, hn, if_false] at h <;>
          exact ih _ _ (fun k' hk' => by cases hk'; exact under_key d n) k h
      | some k0 =>
        cases value <;> simp only [label_names, hn, if_false] at h <;>
          exact ih _ _ hk k h

theorem compute_formulas_key (d : Str) :
    ∀ (fs : List Str) (key formula : Option Str),
      (∀ k, key = some k → under d k) →
      ∀ k, (compute_formulas d fs key formula).1 = some k → under d k := by
  intro fs
  induction fs with
  | nil => intro key value hk k h; exact hk k (by simpa [compute_formulas] using h)
  | cons n ns ih =>
    intro key value hk k h
    by_cases hn : n = []
    · cases key <;> cases value <;> simp only [compute_formulas, hn, if_true] at h <;>
        exact ih _ _ hk k h
    · by_cases hcomma : n.head? = some ','
      · cases key <;> cases value <;>
          simp only [compute_formulas, hn, hcomma, if_false, if_true] at h <;>
          exact hk k h
      · cases key with
        | none =>
          cases value <;> simp only [compute_formulas, hn, hcomma, if_false] at h <;>
            exact ih _ _ (fun k' hk' => by cases hk'; exact under_key d n) k h
        | some k0 =>
          cases value <;> simp only [compute_formulas, hn, hcomma, if_false] at h <;>
            exact ih _ _ hk k h

theorem lookup_append {β : Type} (l1 l2 : Table β) (k : Str) :
    g_hash_table_lookup (l1 ++ l2) k =
      (g_hash_table_lookup l1 k).or (g_hash_table_lookup l2 k) := by
  unfold g_hash_table_lookup
  exact List.lookup_append

theorem lookup_none_of_keys {β : Type} (l : Table β) (k : Str) (P : Str → Prop)
    (hl : ∀ p ∈ l, P p.1) (hk : ¬ P k) : g_hash_table_lookup l k = none := by
  unfold g_hash_table_lookup
  induction l with
  | nil => rfl
  | cons p ps ih =>
    obtain ⟨k', v⟩ := p
    have h1 : k ≠ k' := fun e => hk (e ▸ hl (k', v) (by simp))
    have : (k == k') = false := by simpa using h1
    simp only [List.lookup, this]
    exact ih (fun p hp => hl p (by simp [hp]))

theorem same_tables_refl (s : State) : same_tables s s := ⟨rfl, rfl, rfl⟩

theorem same_tables_trans (s f g : State) (h1 : same_tables s f) (h2 : same_tables f g) :
    same_tables s g :=
  ⟨h2.1.trans h1.1, h2.2.1.trans h1.2.1, h2.2.2.trans h1.2.2⟩

/-- A property of the state that every store of the configuration loop under
a key of the driver keeps holds after the loop. -/
theorem loop_invariant (P : State → Prop) (d : Str)
    (hl : ∀ (s : State) (key : Str) (v : LabelValue) (labels : Table LabelValue),
      under d key → P s →
      g_hash_table_insert (some g_free) s.sensor_labels key v = .ok labels →
      P { s with sensor_labels := labels })
    (hc : ∀ (s : State) (key : Str) (f : Option Str), under d key → P s →
      P { s with sensor_compute := hash_table_replace s.sensor_compute key f }) :
    ∀ (bufs : List Str) (lock : Bool) (s s' : State),
      read_sensor_labels_loop d bufs lock s = .ok s' → P s → P s' := by
  intro bufs
  induction bufs with
  | nil =>
    intro lock s s' h hp
    simp [read_sensor_labels_loop] at h
    exact h ▸ hp
  | cons b bufs ih =>
    intro lock s s' h hp
    rw [read_sensor_labels_loop] at h
    simp only at h
    split at h
    · exact ih lock s s' h hp
    · split at h
      · split at h
        · simp at h
        · rename_i key value hln
          split at h
          · simp at h
          · rename_i labels hins
            exact ih lock _ s' h (hl s _ _ labels
              (label_names_key d _ none none (by simp) key (by rw [hln])) hp hins)
      · split at h
        · split at h
          · exact ih lock s s' h hp
          · split at h
            · simp at h
            · rename_i labels hins
              exact ih lock _ s' h (hl s _ _ labels (under_key d _) hp hins)
        · split at h
          · split at h
            · simp at h
            · rename_i key formula hcf
              rw [insert_compute] at h
              exact ih lock _ s' h (hc s _ _
                (compute_formulas_key d _ none none (by simp) key (by rw [hcf])) hp)
          · split at h
            · split at h
              · split at h
                · simp at h
                · exact ih _ s s' h hp
              · simp at h
                exact h ▸ hp
            · exact ih lock s s' h hp

/-- A `label` line for a channel after its `ignore` line: the store of the
label hands the literal `"ignore"` to `g_free`. -/
theorem label_after_ignore_frees_literal :
    read_sensor_labels (fs_ignore_temp2 "ignore temp2\nlabel temp2 CPU\n".data) "d".data
        State.init = .error .fault := by
  decide

/-- A block with an `ignore` line that is read a second time: the store of the
marker hands the literal of the first reading to `g_free`. -/
theorem ignore_block_read_twice_frees_literal :
    (read_sensor_labels (fs_ignore_temp2 "ignore temp2\n".data) "d".data State.init).bind
        (read_sensor_labels (fs_ignore_temp2 "ignore temp2\n".data) "d".data)
      = .error .fault := by
  decide

/-- Without the `ignore` line the same device publishes both channels, `temp2`
under the name of its label file. -/
theorem temp2_is_published_without_ignore_line :
    (read_sensors_hwmon (env_of (fs_ignore_temp2 []) none printf_2f_zero) 3
        State.init).map (fun s => s.sensors)
      = .ok "d/temp1=0.00\xc2\xb0C|Temperature\nd/Core=0.00\xc2\xb0C|Temperature\n".data := by
  decide

theorem toNat_ofNat_digit (k : Nat) (hk : k < 10) : (Char.ofNat (48 + k)).toNat - 48 = k := by
  interval_cases k <;> decide

/-- The digits written for `n` are read back as `n`, whatever follows them. -/
theorem utoa_digits_spec (fuel : Nat) :
    ∀ (n : Nat) (acc : Str), n < 10 ^ (fuel + 1) →
      ∃ ds : Str, utoa_digits (fuel + 1) n acc = ds ++ acc ∧ ds ≠ [] ∧
        (∀ c ∈ ds, isdigit c = true) ∧
        ∀ (k : Nat) (rest : Str),
          digits_value k (ds ++ rest) = digits_value (k * 10 ^ ds.length + n) rest := by
  have single : ∀ (n : Nat) (acc : Str), n / 10 = 0 →
      ∃ ds : Str, Char.ofNat (48 + n % 10) :: acc = ds ++ acc ∧ ds ≠ [] ∧
        (∀ c ∈ ds, isdigit c = true) ∧
        ∀ (k : Nat) (rest : Str),
          digits_value k (ds ++ rest) = digits_value (k * 10 ^ ds.length + n) rest := by
    intro n acc h0
    have hlt : n < 10 := by omega
    have hmod : n % 10 = n := Nat.mod_eq_of_lt hlt
    rw [hmod]
    refine ⟨[Char.ofNat (48 + n)], by simp, by simp, ?_, ?_⟩
    · intro c hc
      simp at hc
      rw [hc]
      exact isdigit_ofNat _ hlt
    · intro k rest
      simp [digits_value, isdigit_ofNat _ hlt, toNat_ofNat_digit _ hlt]
  induction fuel with
  | zero =>
    intro n acc hn
    have h0 : n / 10 = 0 := by simp at hn; omega
    rw [utoa_digits, if_pos h0]
    exact single n acc h0
  | succ f ih =>
    intro n acc hn
    rw [utoa_digits]
    by_cases h0 : n / 10 = 0
    · rw [if_pos h0]
      exact single n acc h0
    · have hdiv : n / 10 < 10 ^ (f + 1) := by
        rw [Nat.div_lt_iff_lt_mul (by decide)]
        calc n < 10 ^ (f + 1 + 1) := hn
          _ = 10 ^ (f + 1) * 10 := by ring
      obtain ⟨ds, hds, hne, hdig, hval⟩ := ih (n / 10) (Char.ofNat (48 + n % 10) :: acc) hdiv
      have hm : n % 10 < 10 := Nat.mod_lt n (by decide)
      refine ⟨ds ++ [Char.ofNat (48 + n % 10)], by simp [h0, hds], by simp, ?_, ?_⟩
      · intro c hc
        simp at hc
        rcases hc with hc | hc
        · exact hdig c hc
        · rw [hc]; exact isdigit_ofNat _ hm
      · intro k rest
        have := hval k (Char.ofNat (48 + n % 10) :: rest)
        simp only [List.append_assoc, List.singleton_append, this]
        simp only [digits_value, isdigit_ofNat _ hm, toNat_ofNat_digit _ hm, if_true]
        congr 1
        simp only [List.length_append, List.length_singleton, pow_succ]
        have := Nat.div_add_mod n 10
        nlinarith [this]

theorem lt_ten_pow_succ (n : Nat) : n < 10 ^ (n + 1) :=
  calc n < 10 ^ n := Nat.lt_pow_self (by decide) n
    _ ≤ 10 ^ (n + 1) := Nat.pow_le_pow_right (by decide) (by omega)

/-- The `%d` text of a non-negative `int` is a non-empty run of digits that
`atoi` reads back. -/
theorem itoa_spec (c : Int) (h0 : 0 ≤ c) (h1 : c < 2 ^ 31) :
    itoa c ≠ [] ∧ (∀ x ∈ itoa c, isdigit x = true) ∧ atoi (itoa c) = c := by
  obtain ⟨ds, hds, hne, hdig, hval⟩ := utoa_digits_spec c.natAbs c.natAbs [] (lt_ten_pow_succ _)
  have hi : itoa c = ds := by
    unfold itoa
    rw [if_neg (by omega), hds]
    simp
  rw [hi]
  refine ⟨hne, hdig, ?_⟩
  have hv : digits_value 0 ds = c.natAbs := by
    have := hval 0 []
    simpa [digits_value] using this
  cases ds with
  | nil => exact absurd rfl hne
  | cons x xs =>
    have hx : isdigit x = true := hdig x (by simp)
    have hsp : isspace x = false := by
      revert hx; unfold isdigit isspace
      intro hx
      simp at hx
      have hne : x ≠ ' ' := by
        intro e; rw [e] at hx; revert hx; decide
      simp [hne]
      omega
    have hminus : x ≠ '-' := by
      intro e; rw [e] at hx; revert hx; decide
    have hplus : x ≠ '+' := by
      intro e; rw [e] at hx; revert hx; decide
    have hst : strtol (x :: xs) = clamp_long (digits_value 0 (x :: xs)) := by
      unfold strtol
      simp only [List.dropWhile_cons, hsp]
      split
      · rename_i r heq; simp at heq; exact absurd heq.1 hminus
      · rename_i r heq; simp at heq; exact absurd heq.1 hplus
      · simp
    unfold atoi
    rw [hst, hv]
    have hc : (c.natAbs : Int) = c := Int.natAbs_of_nonneg h0
    rw [hc]
    unfold clamp_long int_of_long
    rw [if_neg (by omega), if_neg (by omega)]
    omega

theorem regex_literal (lit : Str) (hlit : ∀ c ∈ lit, c ≠ '(' ∧ c ≠ '$') :
    ∀ (pat subject : Str) (cap : Option Str),
      regex_match_from 0 (lit ++ pat) (lit ++ subject) cap
        = regex_match_from 0 pat subject cap := by
  induction lit with
  | nil => intros; rfl
  | cons x xs ih =>
    intro pat subject cap
    have hx := hlit x (by simp)
    have hxs : ∀ c ∈ xs, c ≠ '(' ∧ c ≠ '$' := fun c hc => hlit c (by simp [hc])
    simp only [List.cons_append, regex_match_from]
    simp [hx.1, hx.2, ih hxs]

theorem takeWhile_digits (ds b : Str) (hds : ∀ c ∈ ds, isdigit c = true)
    (hb : b.head?.map isdigit ≠ some true) :
    (ds ++ b).takeWhile isdigit = ds ∧ (ds ++ b).dropWhile isdigit = b := by
  induction ds with
  | nil =>
    cases b with
    | nil => simp
    | cons y ys =>
      have : isdigit y = false := by
        cases h : isdigit y
        · rfl
        · simp [h] at hb
      simp [List.takeWhile_cons, List.dropWhile_cons, this]
  | cons x xs ih =>
    have hx := hds x (by simp)
    have := ih (fun c hc => hds c (by simp [hc]))
    simp [List.takeWhile_cons, List.dropWhile_cons, hx, this]

/-- An entry named by the stem, a run of digits and the ending matches the
pattern of the kind and captures the digits. -/
theorem regex_match_shape (a b ds : Str)
    (ha : ∀ c ∈ a, c ≠ '(' ∧ c ≠ '$') (hb : ∀ c ∈ b, c ≠ '(' ∧ c ≠ '$')
    (hb2 : b.head?.map isdigit ≠ some true)
    (hds : ∀ c ∈ ds, isdigit c = true) (hne : ds ≠ []) :
    g_regex_match_fetch ('^' :: (a ++ ("([0-9]+)".data ++ (b ++ ['$'])))) (a ++ (ds ++ b))
      = some ds := by
  unfold g_regex_match_fetch
  simp only
  rw [regex_literal a ha]
  have htd := takeWhile_digits ds b hds hb2
  have h1 : regex_match_from 0 ("([0-9]+)".data ++ (b ++ ['$'])) (ds ++ b) none
      = regex_match_from 7 ("[0-9]+)".data ++ (b ++ ['$'])) b (some ds) := by
    show regex_match_from 0 ('(' :: ("[0-9]+)".data ++ (b ++ ['$']))) (ds ++ b) none = _
    simp [regex_match_from, htd.1, htd.2, hne, List.isPrefixOf]
  rw [h1]
  have h2 : regex_match_from 7 ("[0-9]+)".data ++ (b ++ ['$'])) b (some ds)
      = regex_match_from 0 (b ++ ['$']) b (some ds) := by
    simp [regex_match_from]
  rw [h2]
  have h3 := regex_literal b hb ['$'] [] (some ds)
  simp only [List.append_nil] at h3
  rw [h3]
  simp [regex_match_from]

theorem matched_indices_cons (regex e : Str) (es : List Str) :
    matched_indices regex (e :: es) =
      match g_regex_match_fetch regex e with
      | none => matched_indices regex es
      | some tmp => atoi tmp :: matched_indices regex es := by
  unfold matched_indices
  cases h : g_regex_match_fetch regex e <;> simp [List.filterMap_cons, h]

/-- The bounds after the directory loop, started from `(lo, hi)`. -/
theorem min_max_fold (regex : Str) (entries : List Str) :
    ∀ lo hi : Int,
      (entries.foldl (min_max_step regex) (lo, hi)).1 ≤ lo ∧
      hi ≤ (entries.foldl (min_max_step regex) (lo, hi)).2 ∧
      (∀ i ∈ matched_indices regex entries,
        (entries.foldl (min_max_step regex) (lo, hi)).1 ≤ i ∧
        i ≤ (entries.foldl (min_max_step regex) (lo, hi)).2) ∧
      ((entries.foldl (min_max_step regex) (lo, hi)).1 = lo ∨
        (entries.foldl (min_max_step regex) (lo, hi)).1 ∈ matched_indices regex entries) ∧
      ((entries.foldl (min_max_step regex) (lo, hi)).2 = hi ∨
        (entries.foldl (min_max_step regex) (lo, hi)).2 ∈ matched_indices regex entries) := by
  induction entries with
  | nil => intro lo hi; simp [matched_indices]
  | cons e es ih =>
    intro lo hi
    rw [List.foldl_cons, matched_indices_cons]
    cases h : g_regex_match_fetch regex e with
    | none =>
      simp only [min_max_step, h]
      exact ih lo hi
    | some tmp =>
      simp only [min_max_step, h]
      have hlo : (if atoi tmp < lo then atoi tmp else lo) ≤ lo ∧
          (if atoi tmp < lo then atoi tmp else lo) ≤ atoi tmp ∧
          ((if atoi tmp < lo then atoi tmp else lo) = lo ∨
            (if atoi tmp < lo then atoi tmp else lo) = atoi tmp) := by
        split <;> omega
      have hhi : hi ≤ (if atoi tmp > hi then atoi tmp else hi) ∧
          atoi tmp ≤ (if atoi tmp > hi then atoi tmp else hi) ∧
          ((if atoi tmp > hi then atoi tmp else hi) = hi ∨
            (if atoi tmp > hi then atoi tmp else hi) = atoi tmp) := by
        split <;> omega
      generalize (if atoi tmp < lo then atoi tmp else lo) = lo2 at hlo ⊢
      generalize (if atoi tmp > hi then atoi tmp else hi) = hi2 at hhi ⊢
      obtain ⟨h1, h2, h3, h4, h5⟩ := ih lo2 hi2
      refine ⟨by omega, by omega, ?_, ?_, ?_⟩
      · intro i hi'
        simp only [List.mem_cons] at hi'
        rcases hi' with rfl | hi'
        · exact ⟨by omega, by omega⟩
        · exact h3 i hi'
      · rcases h4 with h4 | h4
        · rcases hlo.2.2 with e | e
          · left; rw [h4, e]
          · right; rw [h4, e]; simp
        · right; simp [h4]
      · rcases h5 with h5 | h5
        · rcases hhi.2.2 with e | e
          · left; rw [h5, e]
          · right; rw [h5, e]; simp
        · right; simp [h5]

theorem hwmon_channel_cases (env : Env) (path d : Str) (sensor : HwmonSensor) (st : State)
    (count : Int) :
    hwmon_channel env path d sensor st count = st ∨
      ((read_raw_hwmon_value env.fs path (some sensor.value_path_format) count).isSome ∧
        hwmon_channel env path d sensor st count = hwmon_emit env path d sensor st count) := by
  unfold hwmon_channel hwmon_emit
  cases h : read_raw_hwmon_value env.fs path (some sensor.value_path_format) count with
  | none => left; rfl
  | some tmp =>
    simp only
    split
    · right; simp
    · left; rfl

/-- The channel loop calls `add_sensor` for a duplicate-free list of indices of
its range whose value files are readable. -/
theorem hwmon_channels_spec (env : Env) (path d : Str) (sensor : HwmonSensor) :
    ∀ (n : Nat) (count : Int) (st : State),
      ∃ cs : List Int, cs.Nodup ∧
        (∀ c ∈ cs, count ≤ c ∧ c < count + n ∧
          (read_raw_hwmon_value env.fs path (some sensor.value_path_format) c).isSome) ∧
        hwmon_channels env path d sensor n count st
          = cs.foldl (hwmon_emit env path d sensor) st := by
  intro n
  induction n with
  | zero => intro count st; exact ⟨[], by simp, by simp, rfl⟩
  | succ n ih =>
    intro count st
    rw [hwmon_channels]
    obtain ⟨cs, hnd, hcs, hres⟩ := ih (count + 1) (hwmon_channel env path d sensor st count)
    rcases hwmon_channel_cases env path d sensor st count with h | ⟨hr, h⟩
    · refine ⟨cs, hnd, ?_, by rw [hres, h]⟩
      intro c hc
      obtain ⟨h1, h2, h3⟩ := hcs c hc
      exact ⟨by omega, by push_cast; omega, h3⟩
    · refine ⟨count :: cs, ?_, ?_, by rw [hres, h]; rfl⟩
      · rw [List.nodup_cons]
        refine ⟨fun hc => ?_, hnd⟩
        have := (hcs count hc).1
        omega
      · intro c hc
        simp only [List.mem_cons] at hc
        rcases hc with rfl | hc
        · exact ⟨le_refl _, by push_cast; omega, hr⟩
        · obtain ⟨h1, h2, h3⟩ := hcs c hc
          exact ⟨by omega, by push_cast; omega, h3⟩

theorem atoi_lt (s : Str) : atoi s < 2147483648 := by
  unfold atoi int_of_long
  omega

/-- C3: the bounds of the channel loop and the readings of one sensor kind,
for a directory whose captured indices are read back as non-negative numbers
and in which a readable value file is listed. -/
theorem channel_range_of_matched_indices (env : Env) (path d : Str) (sensor : HwmonSensor)
    (entries : List Str) (st : State)
    (hs : sensor ∈ hwmon_sensors)
    (hnonneg : ∀ i ∈ matched_indices sensor.value_file_regex entries, 0 ≤ i)
    (hdir : ∀ n, (read_raw_hwmon_value env.fs path (some sensor.value_path_format) n).isSome →
      ∃ e ∈ entries, g_strdup_printf "%s/%s".data [Arg.s path, Arg.s e]
        = g_strdup_printf sensor.value_path_format [Arg.s path, Arg.d n]) :
    (matched_indices sensor.value_file_regex entries = [] →
        hwmon_min_max sensor.value_file_regex entries = (999, -1) ∧
        hwmon_sensor_kind env path d entries st sensor = .ok st) ∧
      ((∃ i ∈ matched_indices sensor.value_file_regex entries, i ≤ 999) →
        (hwmon_min_max sensor.value_file_regex entries).1
            ∈ matched_indices sensor.value_file_regex entries ∧
          ∀ i ∈ matched_indices sensor.value_file_regex entries,
            (hwmon_min_max sensor.value_file_regex entries).1 ≤ i) ∧
      (matched_indices sensor.value_file_regex entries ≠ [] →
        (hwmon_min_max sensor.value_file_regex entries).2
            ∈ matched_indices sensor.value_file_regex entries ∧
          ∀ i ∈ matched_indices sensor.value_file_regex entries,
            i ≤ (hwmon_min_max sensor.value_file_regex entries).2) ∧
      ((hwmon_min_max sensor.value_file_regex entries).2 ≠ 2147483647 →
        ∃ cs : List Int, cs.Nodup ∧
          cs.length ≤ (matched_indices sensor.value_file_regex entries).length ∧
          (∀ c ∈ cs, c ∈ matched_indices sensor.value_file_regex entries ∧
            (hwmon_min_max sensor.value_file_regex entries).1 ≤ c ∧
            c ≤ (hwmon_min_max sensor.value_file_regex entries).2) ∧
          hwmon_sensor_kind env path d entries st sensor
            = .ok (cs.foldl (hwmon_emit env path d sensor) st)) := by
  obtain ⟨h1, h2, h3, h4, h5⟩ := min_max_fold sensor.value_file_regex entries 999 (-1)
  change (hwmon_min_max sensor.value_file_regex entries).1 ≤ 999 at h1
  change -1 ≤ (hwmon_min_max sensor.value_file_regex entries).2 at h2
  change ∀ i ∈ matched_indices sensor.value_file_regex entries,
    (hwmon_min_max sensor.value_file_regex entries).1 ≤ i ∧
    i ≤ (hwmon_min_max sensor.value_file_regex entries).2 at h3
  change (hwmon_min_max sensor.value_file_regex entries).1 = 999 ∨
    (hwmon_min_max sensor.value_file_regex entries).1
      ∈ matched_indices sensor.value_file_regex entries at h4
  change (hwmon_min_max sensor.value_file_regex entries).2 = -1 ∨
    (hwmon_min_max sensor.value_file_regex entries).2
      ∈ matched_indices sensor.value_file_regex entries at h5
  refine ⟨?_, ?_, ?_, ?_⟩
  · intro hnil
    rw [hnil] at h4 h5
    simp only [List.not_mem_nil, or_false] at h4 h5
    have hmm : hwmon_min_max sensor.value_file_regex entries = (999, -1) := Prod.ext h4 h5
    refine ⟨hmm, ?_⟩
    unfold hwmon_sensor_kind
    simp only [hmm]
    rfl
  · rintro ⟨i, hi, hi999⟩
    refine ⟨?_, fun j hj => (h3 j hj).1⟩
    rcases h4 with h4 | h4
    · have := (h3 i hi).1
      have e : i = (hwmon_min_max sensor.value_file_regex entries).1 := by omega
      rw [← e]; exact hi
    · exact h4
  · intro hne
    refine ⟨?_, fun j hj => (h3 j hj).2⟩
    rcases h5 with h5 | h5
    · obtain ⟨i, hi⟩ := List.exists_mem_of_ne_nil _ hne
      have := (h3 i hi).2
      have := hnonneg i hi
      omega
    · exact h5
  · intro hmax
    obtain ⟨a, b, b2, hregex, hvalue, -, hab, hbne⟩ := hwmon_sensor_shape sensor hs
    have hlit : ∀ c ∈ "abcdefghijkmnopqrstuvwxyz_".data,
        c ≠ '(' ∧ c ≠ '$' ∧ isdigit c = false := by decide
    have ha : ∀ c ∈ a, c ≠ '(' ∧ c ≠ '$' := fun c hc =>
      ⟨(hlit c (hab c (by simp [hc]))).1, (hlit c (hab c (by simp [hc]))).2.1⟩
    have hb : ∀ c ∈ b, c ≠ '(' ∧ c ≠ '$' := fun c hc =>
      ⟨(hlit c (hab c (by simp [hc]))).1, (hlit c (hab c (by simp [hc]))).2.1⟩
    have hb2 : b.head?.map isdigit ≠ some true := by
      cases b with
      | nil => exact absurd rfl hbne
      | cons y ys =>
        have := (hlit y (hab y (by simp))).2.2
        simp [this]
    have hlo : 0 ≤ (hwmon_min_max sensor.value_file_regex entries).1 := by
      rcases h4 with h4 | h4
      · omega
      · exact hnonneg _ h4
    have hhi : (hwmon_min_max sensor.value_file_regex entries).2 < 2147483648 := by
      rcases h5 with h5 | h5
      · omega
      · unfold matched_indices at h5
        rw [List.mem_filterMap] at h5
        obtain ⟨e, -, he⟩ := h5
        cases hm : g_regex_match_fetch sensor.value_file_regex e with
        | none => simp [hm] at he
        | some tmp =>
          simp [hm] at he
          rw [← he]
          exact atoi_lt tmp
    obtain ⟨cs, hnd, hcs, hres⟩ := hwmon_channels_spec env path d sensor
      ((hwmon_min_max sensor.value_file_regex entries).2 + 1
        - (hwmon_min_max sensor.value_file_regex entries).1).toNat
      (hwmon_min_max sensor.value_file_regex entries).1 st
    have hmem : ∀ c ∈ cs, c ∈ matched_indices sensor.value_file_regex entries ∧
        (hwmon_min_max sensor.value_file_regex entries).1 ≤ c ∧
        c ≤ (hwmon_min_max sensor.value_file_regex entries).2 := by
      intro c hc
      obtain ⟨hc1, hc2, hc3⟩ := hcs c hc
      have hc4 : c ≤ (hwmon_min_max sensor.value_file_regex entries).2 := by omega
      refine ⟨?_, hc1, hc4⟩
      obtain ⟨e, he, hpath⟩ := hdir c hc3
      have hk := printf_key path e
      simp only [String.data] at hk hpath
      rw [hk, hvalue] at hpath
      have he2 : e = a ++ (itoa c ++ b) := by
        have := List.append_cancel_left hpath
        simpa using this
      obtain ⟨hi1, hi2, hi3⟩ := itoa_spec c (by omega) (by omega)
      have hmatch := regex_match_shape a b (itoa c) ha hb hb2 hi2 hi1
      rw [← hregex, ← he2] at hmatch
      unfold matched_indices
      rw [List.mem_filterMap]
      exact ⟨e, he, by simp [hmatch, hi3]⟩
    refine ⟨cs, hnd, ?_, hmem, ?_⟩
    · exact (List.subperm_of_subset hnd (fun c hc => (hmem c hc).1)).length_le
    · unfold hwmon_sensor_kind
      simp only [hmax, if_false, hres]

/-- C3 at a concrete input: a directory with `temp1_input` and `temp3_input`. -/
theorem two_temps_channel_range :
    hwmon_min_max temp_sensor.value_file_regex
        ["temp1_input".data, "temp3_input".data, "temp1_label".data, "name".data] = (1, 3) ∧
      ∃ cs : List Int, cs.length ≤ 2 ∧ (∀ c ∈ cs, 1 ≤ c ∧ c ≤ 3) ∧
        hwmon_sensor_kind (env_of fs_two_temps none printf_2f_zero)
          "/sys/class/hwmon/hwmon0/".data "d".data
          ["temp1_input".data, "temp3_input".data, "temp1_label".data, "name".data]
          State.init temp_sensor
          = .ok (cs.foldl (hwmon_emit (env_of fs_two_temps none printf_2f_zero)
              "/sys/class/hwmon/hwmon0/".data "d".data temp_sensor) State.init) := by
  have hmm : hwmon_min_max temp_sensor.value_file_regex
      ["temp1_input".data, "temp3_input".data, "temp1_label".data, "name".data] = (1, 3) := by
    decide
  have h := channel_range_of_matched_indices (env_of fs_two_temps none printf_2f_zero)
    "/sys/class/hwmon/hwmon0/".data "d".data temp_sensor
    ["temp1_input".data, "temp3_input".data, "temp1_label".data, "name".data] State.init
    (by decide) (by decide)
    (by
      intro n hn
      simp only [read_raw_hwmon_value, env_of, fs_two_temps, conf_only] at hn
      split at hn
      · rename_i h1
        exact ⟨"temp1_input".data, by decide, by rw [h1]; decide⟩
      · split at hn
        · rename_i h1
          exact ⟨"temp3_input".data, by decide, by rw [h1]; decide⟩
        · simp at hn)
  obtain ⟨cs, -, hlen, hcs, hres⟩ := h.2.2.2 (by rw [hmm]; decide)
  refine ⟨hmm, cs, ?_, ?_, hres⟩
  · have e : (matched_indices temp_sensor.value_file_regex
        ["temp1_input".data, "temp3_input".data, "temp1_label".data, "name".data]).length = 2 := by
      decide
    omega
  · intro c hc
    have := (hcs c hc).2
    rw [hmm] at this
    exact this

/-- C1 at a concrete input: the lines `chip "driverX"` and
`label in0 "Core 0"`. -/
theorem quoted_chip_driverX_label :
    (read_sensor_labels
        (conf_only ("chip \"".data ++ "driverX".data ++ "\"\nlabel in0 \"Core 0\"\n".data))
        "driverX".data State.init).map
      (fun st => get_sensor_label_from_conf st ("driverX".data ++ "/in0".data))
      = .ok (some "Core 0".data) :=
  quoted_chip_line_opens_block "driverX".data (by decide) (by decide)

theorem graft_init (s : State) : graft s State.init = s := by
  simp [graft, State.init]

/-- A store into `sensor_labels` that succeeds with older bindings behind the
table succeeds without them, and binds the same. -/
theorem insert_labels_append (rl sl : Table LabelValue) (key : Str) (v : LabelValue)
    (labels : Table LabelValue)
    (h : g_hash_table_insert (some g_free) (rl ++ sl) key v = .ok labels) :
    g_hash_table_insert (some g_free) rl key v = .ok (hash_table_replace rl key v) ∧
      labels = hash_table_replace rl key v ++ sl := by
  obtain ⟨h1, h2⟩ := insert_labels_ok _ _ _ _ h
  refine ⟨insert_labels_of _ _ _ ?_, by rw [h1]; rfl⟩
  intro x hx
  apply h2 x
  rw [lookup_append, hx]
  rfl

/-- The configuration loop only adds bindings in front of the tables: a loop
that succeeds on tables with older bindings behind them succeeds without them
and adds the same bindings. -/
theorem loop_graft (d : Str) :
    ∀ (bufs : List Str) (lock : Bool) (s r f : State),
      read_sensor_labels_loop d bufs lock (graft s r) = .ok f →
      ∃ r', read_sensor_labels_loop d bufs lock r = .ok r' ∧ f = graft s r' := by
  intro bufs
  induction bufs with
  | nil =>
    intro lock s r f h
    simp [read_sensor_labels_loop] at h
    exact ⟨r, by simp [read_sensor_labels_loop], h.symm⟩
  | cons b bufs ih =>
    intro lock s r f h
    rw [read_sensor_labels_loop] at h ⊢
    simp only at h ⊢
    split at h
    · rename_i h0
      rw [if_pos h0]
      exact ih lock s r f h
    · rename_i h0
      rw [if_neg h0]
      split at h
      · rename_i hlab
        rw [if_pos hlab]
        split at h
        · simp at h
        · rename_i key value hln
          split at h
          · simp at h
          · rename_i labels hins
            obtain ⟨e1, e2⟩ := insert_labels_append r.sensor_labels s.sensor_labels key _ labels hins
            rw [e1]
            simp only
            rw [e2] at h
            exact ih lock s (State.mk r.sensors r.lginterval r.moreinfo
              (hash_table_replace r.sensor_labels key (stripped_label value))
              r.sensor_compute r.hwmon_first_run) f h
      · rename_i hlab
        rw [if_neg hlab]
        split at h
        · rename_i hign
          rw [if_pos hign]
          split at h
          · rename_i hsp
            rw [if_pos hsp]
            exact ih lock s r f h
          · rename_i hsp
            rw [if_neg hsp]
            split at h
            · simp at h
            · rename_i labels hins
              obtain ⟨e1, e2⟩ :=
                insert_labels_append r.sensor_labels s.sensor_labels _ _ labels hins
              rw [e1]
              simp only
              rw [e2] at h
              exact ih lock s (State.mk r.sensors r.lginterval r.moreinfo
                (hash_table_replace r.sensor_labels
                  (d ++ '/' :: List.dropWhile (fun c => decide (c = ' '))
                    (List.drop 6 ((strstr (strend (remove_linefeed (c_str b)) '#')
                      "ignore".data).getD []))) (LabelValue.literal "ignore".data))
                r.sensor_compute r.hwmon_first_run) f h
        · rename_i hign
          rw [if_neg hign]
          split at h
          · rename_i hcmp
            rw [if_pos hcmp]
            split at h
            · simp at h
            · rename_i key formula hcf
              rw [insert_compute] at h ⊢
              exact ih lock s (State.mk r.sensors r.lginterval r.moreinfo r.sensor_labels
                (hash_table_replace r.sensor_compute key formula) r.hwmon_first_run) f h
          · rename_i hcmp
            rw [if_neg hcmp]
            split at h
            · rename_i hchip
              rw [if_pos hchip]
              split at h
              · rename_i hlock
                rw [if_pos hlock]
                split at h
                · simp at h
                · rename_i found hfound
                  exact ih _ s r f h
              · rename_i hlock
                rw [if_neg hlock]
                simp at h
                exact ⟨r, rfl, h.symm⟩
            · rename_i hchip
              rw [if_neg hchip]
              exact ih lock s r f h

/-- A successful `read_sensor_labels` puts the tables of the block in front of
the tables it finds. -/
theorem read_sensor_labels_eq (fs : FileSystem) (d : Str) (s s' : State)
    (h : read_sensor_labels fs d s = .ok s') : s' = graft s (conf_state fs d) := by
  unfold conf_state
  unfold read_sensor_labels at h ⊢
  cases hf : (fs.fopen "/etc/sensors3.conf".data).orElse
      (fun _ => fs.fopen "/etc/sensors.conf".data) with
  | none =>
    rw [hf] at h
    simp at h
    simp [graft_init, h]
  | some conf =>
    rw [hf] at h
    simp only at h ⊢
    rw [← graft_init s] at h
    obtain ⟨r', h1, h2⟩ := loop_graft d (fgets_all 256 255 conf) false s State.init s' h
    rw [h1]
    exact h2

theorem conf_state_keys (fs : FileSystem) (d : Str) :
    (∀ p ∈ (conf_state fs d).sensor_labels, under d p.1) ∧
      (∀ p ∈ (conf_state fs d).sensor_compute, under d p.1) := by
  unfold conf_state
  cases hr : read_sensor_labels fs d State.init with
  | error e => simp [State.init]
  | ok r =>
    simp only
    unfold read_sensor_labels at hr
    split at hr
    · simp at hr; rw [← hr]; simp [State.init]
    · refine loop_invariant
        (fun t => (∀ p ∈ t.sensor_labels, under d p.1) ∧ (∀ p ∈ t.sensor_compute, under d p.1))
        d ?_ ?_ _ false State.init r hr ⟨by simp [State.init], by simp [State.init]⟩
      · intro t key v labels hk ht hins
        refine ⟨?_, ht.2⟩
        have hl : labels = hash_table_replace t.sensor_labels key v :=
          (insert_labels_ok _ _ _ _ hins).1
        intro p hp
        simp only [hl, hash_table_replace, List.mem_cons] at hp
        rcases hp with rfl | hp
        · exact hk
        · exact ht.1 p hp
      · intro t key f hk ht
        refine ⟨ht.1, ?_⟩
        intro p hp
        simp only [hash_table_replace, List.mem_cons] at hp
        rcases hp with rfl | hp
        · exact hk
        · exact ht.2 p hp

theorem under_unique (D : Str → Prop)
    (hpf : ∀ d d', D d → D d' → (d ++ ['/']) <+: (d' ++ ['/']) → d = d')
    (d d' k : Str) (hd : D d) (hd' : D d') (h1 : under d k) (h2 : under d' k) : d = d' := by
  rcases List.prefix_or_prefix_of_prefix h1 h2 with h | h
  · exact hpf d d' hd hd' h
  · exact (hpf d' d hd' hd h).symm

/-- Reading the block of a driver keeps the invariant of the first scan and
settles the entries of that driver. -/
theorem read_sensor_labels_inv (fs : FileSystem) (D : Str → Prop)
    (hpf : ∀ d d', D d → D d' → (d ++ ['/']) <+: (d' ++ ['/']) → d = d')
    (d' : Str) (hd' : D d') (s s' : State)
    (hinv : ∀ d, D d → untouched d s ∨ settled fs d s)
    (h : read_sensor_labels fs d' s = .ok s') :
    (∀ d, D d → untouched d s' ∨ settled fs d s') ∧ settled fs d' s' ∧
      (∀ d, D d → settled fs d s → settled fs d s') ∧
      s'.sensors = s.sensors ∧ s'.lginterval = s.lginterval ∧
      s'.hwmon_first_run = s.hwmon_first_run := by
  have hs' := read_sensor_labels_eq fs d' s s' h
  obtain ⟨hkl, hkc⟩ := conf_state_keys fs d'
  have hl : ∀ k, g_hash_table_lookup s'.sensor_labels k =
      (g_hash_table_lookup (conf_state fs d').sensor_labels k).or
        (g_hash_table_lookup s.sensor_labels k) := by
    intro k; rw [hs']; exact lookup_append (conf_state fs d').sensor_labels s.sensor_labels k
  have hc : ∀ k, g_hash_table_lookup s'.sensor_compute k =
      (g_hash_table_lookup (conf_state fs d').sensor_compute k).or
        (g_hash_table_lookup s.sensor_compute k) := by
    intro k; rw [hs']; exact lookup_append (conf_state fs d').sensor_compute s.sensor_compute k
  have hother : ∀ d, D d → d ≠ d' → ∀ k, under d k →
      g_hash_table_lookup s'.sensor_labels k = g_hash_table_lookup s.sensor_labels k ∧
      g_hash_table_lookup s'.sensor_compute k = g_hash_table_lookup s.sensor_compute k := by
    intro d hd hne k hk
    have hnot : ¬ under d' k := fun h2 => hne (under_unique D hpf d d' k hd hd' hk h2)
    rw [hl k, hc k, lookup_none_of_keys _ k (under d') hkl hnot,
      lookup_none_of_keys _ k (under d') hkc hnot]
    exact ⟨rfl, rfl⟩
  have hset : settled fs d' s' := by
    intro k hk
    rw [hl k, hc k]
    rcases hinv d' hd' with hu | hst
    · rw [(hu k hk).1, (hu k hk).2]
      simp
    · rw [(hst k hk).1, (hst k hk).2]
      simp
  have hmono : ∀ d, D d → settled fs d s → settled fs d s' := by
    intro d hd hst
    by_cases hne : d = d'
    · rw [hne]; exact hset
    · intro k hk
      rw [(hother d hd hne k hk).1, (hother d hd hne k hk).2]
      exact hst k hk
  refine ⟨?_, hset, hmono, by rw [hs']; rfl, by rw [hs']; rfl, by rw [hs']; rfl⟩
  intro d hd
  by_cases hne : d = d'
  · right; rw [hne]; exact hset
  · rcases hinv d hd with hu | hst
    · left
      intro k hk
      rw [(hother d hd hne k hk).1, (hother d hd hne k hk).2]
      exact hu k hk
    · right; exact hmono d hd hst

theorem agree_of_same_tables (d : Str) (s s' f f' : State) (ha : agree d s s')
    (h1 : same_tables s f) (h2 : same_tables s' f') : agree d f f' := by
  intro k hk
  rw [h1.1, h1.2.1, h2.1, h2.2.1]
  exact ha k hk


/-- The body of the channel loop publishes the same text from two states that
publish the same text and agree on the entries of the driver. -/
theorem hwmon_channel_sim (env : Env) (path d : Str) (sensor : HwmonSensor) (s s' : State)
    (c : Int) (ht : text_eq s s') (ha : agree d s s') :
    text_eq (hwmon_channel env path d sensor s c) (hwmon_channel env path d sensor s' c) ∧
      same_tables s (hwmon_channel env path d sensor s c) ∧
      same_tables s' (hwmon_channel env path d sensor s' c) := by
  unfold hwmon_channel
  cases read_raw_hwmon_value env.fs path (some sensor.value_path_format) c with
  | none => exact ⟨ht, same_tables_refl s, same_tables_refl s'⟩
  | some tmp =>
    have hk := printf_key d (g_strdup_printf sensor.key_format [Arg.d c])
    simp only [String.data] at hk ⊢
    simp only [hk]
    have hu := ha _ (under_key d (g_strdup_printf sensor.key_format [Arg.d c]))
    have hname : hwmon_channel_name env path sensor s c
        (g_strdup_printf sensor.key_format [Arg.d c])
        (d ++ '/' :: g_strdup_printf sensor.key_format [Arg.d c])
        = hwmon_channel_name env path sensor s' c
        (g_strdup_printf sensor.key_format [Arg.d c])
        (d ++ '/' :: g_strdup_printf sensor.key_format [Arg.d c]) := by
      unfold hwmon_channel_name get_sensor_label_from_conf
      rw [hu.1]
    have hadj : ∀ v, adjust_sensor s (d ++ '/' :: g_strdup_printf sensor.key_format [Arg.d c]) v
        = adjust_sensor s' (d ++ '/' :: g_strdup_printf sensor.key_format [Arg.d c]) v := by
      intro v
      unfold adjust_sensor
      rw [hu.2]
    rw [hname, hadj]
    split
    · refine ⟨?_, ⟨rfl, rfl, rfl⟩, ⟨rfl, rfl, rfl⟩⟩
      unfold text_eq add_sensor
      simp only
      rw [ht.1, ht.2]
      exact ⟨rfl, rfl⟩
    · exact ⟨ht, same_tables_refl s, same_tables_refl s'⟩

theorem hwmon_channels_sim (env : Env) (path d : Str) (sensor : HwmonSensor) :
    ∀ (n : Nat) (c : Int) (s s' : State), text_eq s s' → agree d s s' →
      text_eq (hwmon_channels env path d sensor n c s) (hwmon_channels env path d sensor n c s') ∧
        same_tables s (hwmon_channels env path d sensor n c s) ∧
        same_tables s' (hwmon_channels env path d sensor n c s') := by
  intro n
  induction n with
  | zero => intro c s s' ht _; exact ⟨ht, same_tables_refl s, same_tables_refl s'⟩
  | succ n ih =>
    intro c s s' ht ha
    rw [hwmon_channels, hwmon_channels]
    obtain ⟨h1, h2, h3⟩ := hwmon_channel_sim env path d sensor s s' c ht ha
    obtain ⟨h4, h5, h6⟩ := ih (c + 1) _ _ h1 (agree_of_same_tables d s s' _ _ ha h2 h3)
    exact ⟨h4, same_tables_trans _ _ _ h2 h5, same_tables_trans _ _ _ h3 h6⟩

theorem hwmon_sensor_kinds_sim (env : Env) (path d : Str) (entries : List Str) :
    ∀ (sensors : List HwmonSensor) (s s' f : State), text_eq s s' → agree d s s' →
      hwmon_sensor_kinds env path d entries sensors s = .ok f →
      ∃ f', hwmon_sensor_kinds env path d entries sensors s' = .ok f' ∧ text_eq f f' ∧
        same_tables s f ∧ same_tables s' f' := by
  intro sensors
  induction sensors with
  | nil =>
    intro s s' f ht _ h
    simp [hwmon_sensor_kinds] at h
    exact ⟨s', rfl, h ▸ ht, h ▸ same_tables_refl s, same_tables_refl s'⟩
  | cons sensor sensors ih =>
    intro s s' f ht ha h
    rw [hwmon_sensor_kinds] at h ⊢
    unfold hwmon_sensor_kind at h ⊢
    by_cases hmax : (hwmon_min_max sensor.value_file_regex entries).2 = 2147483647
    · simp [hmax] at h
    · simp only [hmax, if_false] at h ⊢
      obtain ⟨h1, h2, h3⟩ := hwmon_channels_sim env path d sensor
        ((hwmon_min_max sensor.value_file_regex entries).2 + 1
          - (hwmon_min_max sensor.value_file_regex entries).1).toNat
        (hwmon_min_max sensor.value_file_regex entries).1 s s' ht ha
      obtain ⟨f', h4, h5, h6, h7⟩ := ih _ _ f h1 (agree_of_same_tables d s s' _ _ ha h2 h3) h
      exact ⟨f', h4, h5, same_tables_trans _ _ _ h2 h6, same_tables_trans _ _ _ h3 h7⟩

theorem settled_of_same_tables (fs : FileSystem) (d : Str) (s f : State)
    (h : same_tables s f) : settled fs d s ↔ settled fs d f := by
  unfold settled
  rw [h.1, h.2.1]

theorem untouched_of_same_tables (d : Str) (s f : State)
    (h : same_tables s f) : untouched d s ↔ untouched d f := by
  unfold untouched
  rw [h.1, h.2.1]

theorem agree_of_settled (fs : FileSystem) (d : Str) (s s' : State)
    (h1 : settled fs d s) (h2 : settled fs d s') : agree d s s' := by
  intro k hk
  exact ⟨(h1 k hk).1.trans (h2 k hk).1.symm, (h1 k hk).2.trans (h2 k hk).2.symm⟩

theorem agree_refl (d : Str) (s : State) : agree d s s := fun _ _ => ⟨rfl, rfl⟩

theorem text_eq_refl (s : State) : text_eq s s := ⟨rfl, rfl⟩

theorem hwmon_sensor_kinds_tables (env : Env) (path d : Str) (entries : List Str)
    (sensors : List HwmonSensor) (s f : State)
    (h : hwmon_sensor_kinds env path d entries sensors s = .ok f) : same_tables s f := by
  obtain ⟨f', -, -, h1, -⟩ :=
    hwmon_sensor_kinds_sim env path d entries sensors s s f (text_eq_refl s) (agree_refl d s) h
  exact h1

/-- The device loop of the first scan against the same loop of a later scan. -/
theorem hwmon_devices_sim (env : Env)
    (hpf : ∀ d d', scanned_driver env d → scanned_driver env d' →
      (d ++ ['/']) <+: (d' ++ ['/']) → d = d')
    (pfx : Str) (hp : pfx ∈ hwmon_prefix) :
    ∀ (fuel : Nat) (i : Int) (s f : State), s.hwmon_first_run = true →
      (∀ d, scanned_driver env d → untouched d s ∨ settled env.fs d s) →
      hwmon_devices env pfx fuel i s = .ok f →
      f.hwmon_first_run = true ∧
      (∀ d, scanned_driver env d → untouched d f ∨ settled env.fs d f) ∧
      (∀ d, scanned_driver env d → settled env.fs d s → settled env.fs d f) ∧
      ∀ s', s'.hwmon_first_run = false → text_eq s s' →
        (∀ d, scanned_driver env d → settled env.fs d f → settled env.fs d s') →
        ∃ f', hwmon_devices env pfx fuel i s' = .ok f' ∧ text_eq f f' ∧ same_tables s' f' := by
  intro fuel
  induction fuel with
  | zero => intro i s f _ _ h; simp [hwmon_devices] at h
  | succ fuel ih =>
    intro i s f hfirst hinv h
    rw [hwmon_devices] at h
    simp only at h
    by_cases hex : env.fs.file_test_exists (get_sensor_path i pfx) = true
    · simp only [hex, if_true, hfirst] at h
      have hD : scanned_driver env
          (determine_driver_for_hwmon_path env.fs (get_sensor_path i pfx)) :=
        ⟨i, pfx, hp, hex, rfl⟩
      cases hread : read_sensor_labels env.fs
          (determine_driver_for_hwmon_path env.fs (get_sensor_path i pfx)) s with
      | error e => simp [hread] at h
      | ok sd =>
        simp only [hread] at h
        obtain ⟨hinv1, hset1, hmono1, hsen1, hlg1, hfr1⟩ :=
          read_sensor_labels_inv env.fs (scanned_driver env) hpf _ hD s sd hinv hread
        have hfirst1 : sd.hwmon_first_run = true := by rw [hfr1]; exact hfirst
        cases hdir : env.fs.dir_open (get_sensor_path i pfx) with
        | none =>
          simp only [hdir] at h
          obtain ⟨g1, g2, g3, g4⟩ := ih i sd f hfirst1 hinv1 h
          refine ⟨g1, g2, fun d hd hs => g3 d hd (hmono1 d hd hs), ?_⟩
          intro s' hs' ht hfut
          obtain ⟨f', k1, k2, k3⟩ := g4 s' hs' ⟨hsen1.trans ht.1, hlg1.trans ht.2⟩ hfut
          refine ⟨f', ?_, k2, k3⟩
          rw [hwmon_devices]
          simp only [hex, if_true, hs', Bool.false_eq_true, if_false, hdir]
          exact k1
        | some entries =>
          simp only [hdir] at h
          cases hk : hwmon_sensor_kinds env (get_sensor_path i pfx)
              (determine_driver_for_hwmon_path env.fs (get_sensor_path i pfx)) entries
              hwmon_sensors sd with
          | error e => simp [hk] at h
          | ok sk =>
            simp only [hk] at h
            have hst := hwmon_sensor_kinds_tables env _ _ entries hwmon_sensors sd sk hk
            have hfirstk : sk.hwmon_first_run = true := by rw [hst.2.2]; exact hfirst1
            have hinvk : ∀ d, scanned_driver env d → untouched d sk ∨ settled env.fs d sk := by
              intro d hd
              rcases hinv1 d hd with hu | hs
              · exact Or.inl ((untouched_of_same_tables d sd sk hst).1 hu)
              · exact Or.inr ((settled_of_same_tables env.fs d sd sk hst).1 hs)
            obtain ⟨g1, g2, g3, g4⟩ := ih (i + 1) sk f hfirstk hinvk h
            refine ⟨g1, g2, fun d hd hs => g3 d hd
              ((settled_of_same_tables env.fs d sd sk hst).1 (hmono1 d hd hs)), ?_⟩
            intro s' hs' ht hfut
            have hsetf := g3 _ hD ((settled_of_same_tables env.fs _ sd sk hst).1 hset1)
            have hagree := agree_of_settled env.fs _ sd s' hset1 (hfut _ hD hsetf)
            obtain ⟨fk', m1, m2, m3, m4⟩ := hwmon_sensor_kinds_sim env _ _ entries hwmon_sensors
              sd s' sk ⟨hsen1.trans ht.1, hlg1.trans ht.2⟩ hagree hk
            obtain ⟨f', k1, k2, k3⟩ := g4 fk' (by rw [m4.2.2]; exact hs') m2
              (fun d hd hs => (settled_of_same_tables env.fs d s' fk' m4).1 (hfut d hd hs))
            refine ⟨f', ?_, k2, same_tables_trans _ _ _ m4 k3⟩
            rw [hwmon_devices]
            simp only [hex, if_true, hs', Bool.false_eq_true, if_false, hdir, m1]
            exact k1
    · simp only [hex] at h
      simp at h
      subst h
      refine ⟨hfirst, hinv, fun _ _ hs => hs, ?_⟩
      intro s' _ ht _
      refine ⟨s', ?_, ht, same_tables_refl s'⟩
      rw [hwmon_devices]
      simp [hex]

theorem hwmon_prefixes_sim (env : Env)
    (hpf : ∀ d d', scanned_driver env d → scanned_driver env d' →
      (d ++ ['/']) <+: (d' ++ ['/']) → d = d')
    (fuel : Nat) :
    ∀ (pfxs : List Str), (∀ p ∈ pfxs, p ∈ hwmon_prefix) →
      ∀ (s f : State), s.hwmon_first_run = true →
      (∀ d, scanned_driver env d → untouched d s ∨ settled env.fs d s) →
      hwmon_prefixes env fuel pfxs s = .ok f →
      f.hwmon_first_run = true ∧
      (∀ d, scanned_driver env d → untouched d f ∨ settled env.fs d f) ∧
      (∀ d, scanned_driver env d → settled env.fs d s → settled env.fs d f) ∧
      ∀ s', s'.hwmon_first_run = false → text_eq s s' →
        (∀ d, scanned_driver env d → settled env.fs d f → settled env.fs d s') →
        ∃ f', hwmon_prefixes env fuel pfxs s' = .ok f' ∧ text_eq f f' ∧ same_tables s' f' := by
  intro pfxs
  induction pfxs with
  | nil =>
    intro _ s f hfirst hinv h
    simp [hwmon_prefixes] at h
    subst h
    exact ⟨hfirst, hinv, fun _ _ hs => hs, fun s' _ ht _ =>
      ⟨s', by simp [hwmon_prefixes], ht, same_tables_refl s'⟩⟩
  | cons p ps ih =>
    intro hsub s f hfirst hinv h
    rw [hwmon_prefixes] at h
    cases hd : hwmon_devices env p fuel 0 s with
    | error e => simp [hd] at h
    | ok g =>
      simp only [hd] at h
      obtain ⟨a1, a2, a3, a4⟩ :=
        hwmon_devices_sim env hpf p (hsub p (by simp)) fuel 0 s g hfirst hinv hd
      obtain ⟨b1, b2, b3, b4⟩ := ih (fun q hq => hsub q (by simp [hq])) g f a1 a2 h
      refine ⟨b1, b2, fun d hD hs => b3 d hD (a3 d hD hs), ?_⟩
      intro s' hs' ht hfut
      obtain ⟨g', c1, c2, c3⟩ := a4 s' hs' ht (fun d hD hs => hfut d hD (b3 d hD hs))
      obtain ⟨f', e1, e2, e3⟩ := b4 g' (by rw [c3.2.2]; exact hs') c2
        (fun d hD hs => (settled_of_same_tables env.fs d s' g' c3).1 (hfut d hD hs))
      refine ⟨f', ?_, e2, same_tables_trans _ _ _ c3 e3⟩
      rw [hwmon_prefixes]
      simp only [c1]
      exact e1

theorem add_sensor_sim (env : Env) (s s' : State) (type sensor driver : Str) (value : Val)
    (unit : Str) (ht : text_eq s s') :
    text_eq (add_sensor env s type sensor driver value unit)
      (add_sensor env s' type sensor driver value unit) := by
  unfold text_eq add_sensor
  simp only
  rw [ht.1, ht.2]
  exact ⟨rfl, rfl⟩

theorem dir_entries_sim (body : State → Str → Res State)
    (hbody : ∀ s s' e f, text_eq s s' → body s e = .ok f →
      ∃ f', body s' e = .ok f' ∧ text_eq f f' ∧ same_tables s f) :
    ∀ (es : List Str) (s s' f : State), text_eq s s' → dir_entries body es s = .ok f →
      ∃ f', dir_entries body es s' = .ok f' ∧ text_eq f f' ∧ same_tables s f := by
  intro es
  induction es with
  | nil =>
    intro s s' f ht h
    simp [dir_entries] at h
    subst h
    exact ⟨s', rfl, ht, same_tables_refl s⟩
  | cons e es ih =>
    intro s s' f ht h
    rw [dir_entries] at h ⊢
    cases hb : body s e with
    | error x => simp [hb] at h
    | ok g =>
      simp only [hb] at h
      obtain ⟨g', b1, b2, b3⟩ := hbody s s' e g ht hb
      obtain ⟨f', c1, c2, c3⟩ := ih g g' f b2 h
      refine ⟨f', ?_, c2, same_tables_trans _ _ _ b3 c3⟩
      simp only [b1]
      exact c1

theorem acpi_entry_sim (env : Env) (path_tz : Str) (s s' : State) (e : Str) (f : State)
    (ht : text_eq s s') (h : acpi_entry env path_tz s e = .ok f) :
    ∃ f', acpi_entry env path_tz s' e = .ok f' ∧ text_eq f f' ∧ same_tables s f := by
  unfold acpi_entry at h ⊢
  split at h
  · simp at h; subst h
    exact ⟨s', rfl, ht, same_tables_refl s⟩
  · split at h
    · simp at h
    · simp at h; subst h
      exact ⟨_, rfl, add_sensor_sim _ _ _ _ _ _ _ _ ht, ⟨rfl, rfl, rfl⟩⟩

theorem sys_thermal_entry_sim (env : Env) (path_tz : Str) (s s' : State) (e : Str) (f : State)
    (ht : text_eq s s') (h : sys_thermal_entry env path_tz s e = .ok f) :
    ∃ f', sys_thermal_entry env path_tz s' e = .ok f' ∧ text_eq f f' ∧ same_tables s f := by
  unfold sys_thermal_entry at h ⊢
  split at h
  · simp at h; subst h
    exact ⟨s', rfl, ht, same_tables_refl s⟩
  · split at h
    · simp at h
    · simp at h; subst h
      exact ⟨_, rfl, add_sensor_sim _ _ _ _ _ _ _ _ ht, ⟨rfl, rfl, rfl⟩⟩

theorem read_sensors_acpi_sim (env : Env) (s s' f : State) (ht : text_eq s s')
    (h : read_sensors_acpi env s = .ok f) :
    ∃ f', read_sensors_acpi env s' = .ok f' ∧ text_eq f f' ∧ same_tables s f := by
  unfold read_sensors_acpi at h ⊢
  simp only at h ⊢
  split at h
  · rename_i hc
    rw [if_pos hc]
    split at h
    · simp at h; subst h
      exact ⟨s', rfl, ht, same_tables_refl s⟩
    · exact dir_entries_sim _ (acpi_entry_sim env _) _ s s' f ht h
  · rename_i hc
    rw [if_neg hc]
    simp at h; subst h
    exact ⟨s', rfl, ht, same_tables_refl s⟩

theorem read_sensors_sys_thermal_sim (env : Env) (s s' f : State) (ht : text_eq s s')
    (h : read_sensors_sys_thermal env s = .ok f) :
    ∃ f', read_sensors_sys_thermal env s' = .ok f' ∧ text_eq f f' ∧ same_tables s f := by
  unfold read_sensors_sys_thermal at h ⊢
  simp only at h ⊢
  split at h
  · rename_i hc
    rw [if_pos hc]
    split at h
    · simp at h; subst h
      exact ⟨s', rfl, ht, same_tables_refl s⟩
    · exact dir_entries_sim _ (sys_thermal_entry_sim env _) _ s s' f ht h
  · rename_i hc
    rw [if_neg hc]
    simp at h; subst h
    exact ⟨s', rfl, ht, same_tables_refl s⟩

theorem read_sensors_omnibook_sim (env : Env) (s s' f : State) (ht : text_eq s s')
    (h : read_sensors_omnibook env s = .ok f) :
    ∃ f', read_sensors_omnibook env s' = .ok f' ∧ text_eq f f' ∧ same_tables s f := by
  unfold read_sensors_omnibook at h ⊢
  split at h
  · simp at h; subst h
    exact ⟨s', rfl, ht, same_tables_refl s⟩
  · split at h
    · simp at h
    · simp at h; subst h
      exact ⟨_, rfl, add_sensor_sim _ _ _ _ _ _ _ _ ht, ⟨rfl, rfl, rfl⟩⟩

theorem hddtemp_disks_sim (env : Env) :
    ∀ (disks : List Str) (s s' f : State), text_eq s s' →
      hddtemp_disks env disks s = .ok f →
      ∃ f', hddtemp_disks env disks s' = .ok f' ∧ text_eq f f' ∧ same_tables s f := by
  intro disks
  induction disks with
  | nil =>
    intro s s' f ht h
    simp [hddtemp_disks] at h
    subst h
    exact ⟨s', by simp [hddtemp_disks], ht, same_tables_refl s⟩
  | cons disk disks ih =>
    intro s s' f ht h
    cases disk with
    | nil => simp [hddtemp_disks] at h
    | cons c disk =>
      rw [hddtemp_disks] at h ⊢
      split at h
      · rename_i model temp code rest heq
        obtain ⟨f', h1, h2, h3⟩ := ih _ _ f (add_sensor_sim env s s' _ _ _ _ _ ht) h
        refine ⟨f', ?_, h2, same_tables_trans _ _ _ ⟨rfl, rfl, rfl⟩ h3⟩
        simp only [heq]
        exact h1
      · simp at h

theorem read_sensors_hddtemp_sim (env : Env) (s s' f : State) (ht : text_eq s s')
    (h : read_sensors_hddtemp env s = .ok f) :
    ∃ f', read_sensors_hddtemp env s' = .ok f' ∧ text_eq f f' ∧ same_tables s f := by
  unfold read_sensors_hddtemp at h ⊢
  split at h
  · simp at h; subst h
    exact ⟨s', rfl, ht, same_tables_refl s⟩
  · split at h
    · simp at h
    · split at h
      · rename_i hc
        rw [if_pos hc]
        exact hddtemp_disks_sim env _ s s' f ht h
      · rename_i hc
        rw [if_neg hc]
        simp at h; subst h
        exact ⟨s', rfl, ht, same_tables_refl s⟩

/-- With one driver on two devices and an `ignore` line in its block the first
scan reads the block twice, and the second reading hands the literal
`"ignore"` to `g_free`. -/
theorem same_driver_twice_with_ignore_line_faults :
    scan_sensors_do (env_of fs_same_driver_twice none printf_2f_zero) 3 State.init
      = .error .fault := by
  decide

/-- When the omnibook file does not match the format of `sscanf`, the `int`
that is published was never assigned. -/
theorem omnibook_unmatched_uses_unassigned_int (printf_2f : Val → Str) (st : State) :
    read_sensors_omnibook (env_of fs_omnibook_unmatched none printf_2f) st = .error .fault := by
  have h : scanned_temperature "CPU temperature: %d C".data "CPU temperature: n/a\n".data
      = .error .fault := by decide
  have hc : (env_of fs_omnibook_unmatched none printf_2f).fs.get_contents
      "/proc/omnibook/temperature".data = some "CPU temperature: n/a\n".data := by
    simp [env_of, fs_omnibook_unmatched]
  unfold read_sensors_omnibook
  rw [hc]
  simp only [h]

/-- C9: when no driver of an existing hwmon path, followed by a slash, is the
start of another such driver followed by a slash, and the first scan of the
process returns, a scan that follows it returns too and publishes the same
`sensors` and `lginterval` text. -/
theorem scan_twice_publishes_same_text (env : Env) (fuel : Nat) (st1 : State)
    (hpf : ∀ d d', scanned_driver env d → scanned_driver env d' →
      (d ++ ['/']) <+: (d' ++ ['/']) → d = d')
    (h1 : scan_sensors_do env fuel State.init = .ok st1) :
    ∃ st2, scan_sensors_do env fuel st1 = .ok st2 ∧
      st2.sensors = st1.sensors ∧ st2.lginterval = st1.lginterval := by
  unfold scan_sensors_do read_sensors_hwmon at h1
  cases hg : hwmon_prefixes env fuel ( hwmon_prefix)
      { State.init with sensors := [], lginterval := [] } with
  | error e => simp [hg] at h1
  | ok g =>
    simp only [hg] at h1
    cases ha : read_sensors_acpi env { g with hwmon_first_run := false } with
    | error e => simp [ha] at h1
    | ok sa =>
      simp only [ha] at h1
      cases hb : read_sensors_sys_thermal env sa with
      | error e => simp [hb] at h1
      | ok sb =>
        simp only [hb] at h1
        cases hc : read_sensors_omnibook env sb with
        | error e => simp [hc] at h1
        | ok sc =>
          simp only [hc] at h1
          have hinit : ∀ d, scanned_driver env d →
              untouched d { State.init with sensors := [], lginterval := [] } ∨
              settled env.fs d { State.init with sensors := [], lginterval := [] } :=
            fun d _ => Or.inl (fun k _ => ⟨rfl, rfl⟩)
          obtain ⟨-, -, -, a4⟩ := hwmon_prefixes_sim env hpf fuel ( hwmon_prefix)
            (fun p hp => hp) _ g rfl hinit hg
          obtain ⟨_, -, -, b2⟩ := read_sensors_acpi_sim env _ _ sa
            (text_eq_refl { g with hwmon_first_run := false }) ha
          obtain ⟨_, -, -, c2⟩ := read_sensors_sys_thermal_sim env _ _ sb (text_eq_refl sa) hb
          obtain ⟨_, -, -, d2⟩ := read_sensors_omnibook_sim env _ _ sc (text_eq_refl sb) hc
          obtain ⟨_, -, -, e2⟩ := read_sensors_hddtemp_sim env _ _ st1 (text_eq_refl sc) h1
          have htab : same_tables { g with hwmon_first_run := false } st1 :=
            same_tables_trans _ _ _
              (same_tables_trans _ _ _ (same_tables_trans _ _ _ b2 c2) d2) e2
          have hfut : ∀ d, scanned_driver env d → settled env.fs d g →
              settled env.fs d { st1 with sensors := [], lginterval := [] } := by
            intro d _ hs k hk
            show g_hash_table_lookup st1.sensor_labels k = _ ∧
              g_hash_table_lookup st1.sensor_compute k = _
            rw [htab.1, htab.2.1]
            exact hs k hk
          obtain ⟨g', p1, p2, -⟩ := a4 { st1 with sensors := [], lginterval := [] } htab.2.2
            ⟨rfl, rfl⟩ hfut
          have hg2 : text_eq { g with hwmon_first_run := false }
              { g' with hwmon_first_run := false } := p2
          obtain ⟨sa', q1, q2, -⟩ := read_sensors_acpi_sim env _ _ sa hg2 ha
          obtain ⟨sb', r1, r2, -⟩ := read_sensors_sys_thermal_sim env _ _ sb q2 hb
          obtain ⟨sc', t1, t2, -⟩ := read_sensors_omnibook_sim env _ _ sc r2 hc
          obtain ⟨st2, u1, u2, -⟩ := read_sensors_hddtemp_sim env _ _ st1 t2 h1
          refine ⟨st2, ?_, u2.1.symm, u2.2.symm⟩
          unfold scan_sensors_do read_sensors_hwmon
          simp only [p1, q1, r1, t1]
          exact u1

/-- C9, as stated: with the drivers `bus/chip` and `bus` the first scan
publishes the channel as `temp1`, the second as `CPU`. -/
theorem second_scan_differs_for_nested_drivers :
    (scan_sensors_do (env_of fs_nested_drivers none printf_2f_zero) 3 State.init).map
        (fun st => st.sensors) = .ok "bus/chip/temp1=0.00\xc2\xb0C|Temperature\n".data ∧
      ((scan_sensors_do (env_of fs_nested_drivers none printf_2f_zero) 3 State.init).bind
        (scan_sensors_do (env_of fs_nested_drivers none printf_2f_zero) 3)).map
        (fun st => st.sensors) = .ok "bus/chip/CPU=0.00\xc2\xb0C|Temperature\n".data := by
  decide

theorem scanned_driver_two_devices (d : Str)
    (h : scanned_driver (env_of fs_two_devices none printf_2f_zero) d) :
    d = "coretemp".data ∨ d = "acpitz".data := by
  obtain ⟨i, pfx, -, hex, rfl⟩ := h
  simp only [env_of, fs_two_devices, Bool.or_eq_true, decide_eq_true_eq] at hex
  rcases hex with hex | hex
  · left; simp only [env_of]; rw [hex]; decide
  · right; simp only [env_of]; rw [hex]; decide

/-- C9 at a concrete input: two devices `coretemp` and `acpitz`, one of them
with a label of the configuration file. -/
theorem two_devices_scan_twice :
    ∃ st2, scan_sensors_do (env_of fs_two_devices none printf_2f_zero) 3 first_scan_two_devices
        = .ok st2 ∧
      st2.sensors = first_scan_two_devices.sensors ∧
      st2.lginterval = first_scan_two_devices.lginterval :=
  scan_twice_publishes_same_text (env_of fs_two_devices none printf_2f_zero) 3
    first_scan_two_devices
    (by
      intro d d' hd hd' hp
      rcases scanned_driver_two_devices d hd with rfl | rfl <;>
        rcases scanned_driver_two_devices d' hd' with rfl | rfl
      · rfl
      · exact absurd hp (by decide)
      · exact absurd hp (by decide)
      · rfl)
    (by decide)


end Hardinfo
